import Mathlib

/-!
# Ember: gateway session handler and login authenticator

A shallow embedding of `src/gateway/ClientHandler.cpp`, `src/login/Authenticator.cpp`
and `src/tools/dbcparser/Parser.cpp`.

* Byte strings (`std::string`, `Botan::SecureVector<byte>`, wire arrays) are lists of
  naturals, one entry per byte.
* `Botan::BigInt` values are naturals.
* Every call the handler makes on its connection or on a service handle is appended to
  a chronological log, so that the order of sends and closes can be stated.
* Library routines that live outside the translated files (the packet codec, SHA-1,
  the SRP6 arithmetic) are parameters of the functions that use them.
* A parsed XML document is a tree of nodes; a parser call ends with its result, with a
  thrown exception, or by dereferencing a null node pointer.
-/

set_option autoImplicit false

namespace ember

/-- Byte strings: one list entry per byte, first byte first. -/
abbrev Bytes := List Nat

/-! ## Botan -/

namespace Botan

/-- Big-endian decoding of a byte buffer, as done by `BigInt::decode(buf, length)`:
the first byte is the most significant one. -/
def BigInt.decode (buf : Bytes) : Nat :=
  buf.foldl (fun acc b => acc * 256 + b) 0

/-- Big-endian encoding of a non-negative integer, as done by `BigInt::encode(n)`:
most significant byte first, as many bytes as the integer needs and no more. -/
def BigInt.encode (n : Nat) : Bytes :=
  (Nat.digits 256 n).reverse

/-- The streaming interface of `Botan::SHA_160`: the object accumulates whatever is fed
to it through `update`. -/
structure SHA_160 where
  buffer : Bytes := []
  deriving DecidableEq, Repr

/-- The call `hasher.update(bytes)`. -/
def SHA_160.update (hasher : SHA_160) (input : Bytes) : SHA_160 :=
  { hasher with buffer := hasher.buffer ++ input }

/-- The call `hasher.final()`: the digest function `sha` (SHA-1 itself, a parameter) applied
to everything that was fed to the object. -/
def SHA_160.final (sha : Bytes → Bytes) (hasher : SHA_160) : Bytes :=
  sha hasher.buffer

end Botan

/-- Object representation of a `std::uint32_t`, as read through a `(Botan::byte*)&x` cast
with `sizeof(x)` on the little-endian hosts the server is built for: four bytes, least
significant first. -/
def uint32_bytes (x : Nat) : Bytes :=
  (List.range 4).map (fun i => (x % 2 ^ 32) / 256 ^ i % 256)

/-! ## Protocol types used by the gateway -/

namespace protocol

/-- Modelled from the spec: the client opcodes the handler names; every opcode it does not
name is an `OTHER`. The enum itself is declared outside the translated files. -/
inductive ClientOpcodes where
  | CMSG_PING
  | CMSG_KEEP_ALIVE
  | CMSG_AUTH_SESSION
  | CMSG_CHAR_ENUM
  | CMSG_CHAR_CREATE
  | CMSG_CHAR_DELETE
  | CMSG_PLAYER_LOGIN
  | OTHER (code : Nat)
  deriving DecidableEq, Repr

/-- Server opcodes passed to `connection_.send`. -/
inductive ServerOpcodes where
  | SMSG_PONG
  | SMSG_AUTH_CHALLENGE
  | SMSG_AUTH_RESPONSE
  | SMSG_CHAR_CREATE
  | SMSG_CHAR_ENUM
  | SMSG_CHAR_DELETE
  deriving DecidableEq, Repr

/-- Result codes the handler writes into its replies. -/
inductive ResultCode where
  | AUTH_OK
  | AUTH_BAD_SERVER_PROOF
  | AUTH_ALREADY_ONLINE
  | AUTH_UNKNOWN_ACCOUNT
  | AUTH_SYSTEM_ERROR
  | AUTH_UNAVAILABLE
  | CHAR_CREATE_SUCCESS
  | CHAR_DELETE_SUCCESS
  deriving DecidableEq, Repr

/-- The header of an inbound packet. -/
structure ClientHeader where
  size : Nat
  opcode : ClientOpcodes
  deriving DecidableEq, Repr

/-- The fields of a ping the handler reads. -/
structure CMSG_PING where
  sequence_id : Nat
  latency : Nat
  deriving DecidableEq, Repr

/-- The fields of a session-auth packet the handler reads. -/
structure CMSG_AUTH_SESSION where
  username : Bytes
  seed : Nat
  digest : Bytes
  deriving DecidableEq, Repr

end protocol

/-- A character record; the handler only passes it on, so it is kept as its encoded bytes. -/
abbrev Character := Bytes

namespace protocol

/-- The field of a character-creation request the handler reads. -/
structure CMSG_CHAR_CREATE where
  character : Character
  deriving DecidableEq, Repr

/-- The field of a character-deletion request the handler reads. -/
structure CMSG_CHAR_DELETE where
  id : Nat
  deriving DecidableEq, Repr

/-- A player-login request; the handler parses it and reads nothing from it. -/
structure CMSG_PLAYER_LOGIN where
  character_id : Nat
  deriving DecidableEq, Repr

/-- The reply objects the handler allocates, with the fields it sets. -/
inductive ServerPacket where
  | SMSG_PONG (sequence_id : Nat)
  | SMSG_AUTH_CHALLENGE (seed : Nat)
  | SMSG_AUTH_RESPONSE (result : ResultCode)
  | SMSG_CHAR_CREATE (result : ResultCode)
  | SMSG_CHAR_ENUM (characters : List Character)
  deriving DecidableEq, Repr

/-- The packet codec (`Packet::read_from_stream`) is outside the translated files: for each
packet type it either yields the parsed packet (`State::DONE`) or fails. -/
structure Codec where
  ping : Bytes → Option CMSG_PING
  auth_session : Bytes → Option CMSG_AUTH_SESSION
  char_create : Bytes → Option CMSG_CHAR_CREATE
  char_delete : Bytes → Option CMSG_CHAR_DELETE
  player_login : Bytes → Option CMSG_PLAYER_LOGIN

end protocol

namespace messaging

/-- Modelled from the spec: the account-service status, `OK`, `ALREADY_LOGGED_IN`,
`SESSION_NOT_FOUND`, or any other (unspecified) remote error. The enum itself is generated
code outside the translated files. -/
inductive account.Status where
  | OK
  | ALREADY_LOGGED_IN
  | SESSION_NOT_FOUND
  | OTHER (code : Nat)
  deriving DecidableEq, Repr

/-- Modelled from the spec: the character-service status, `OK` or any other value. -/
inductive character.Status where
  | OK
  | OTHER (code : Nat)
  deriving DecidableEq, Repr

end messaging

/-! ## The gateway's client handler -/

/-- Modelled from the spec: the lifecycle states `ClientHandler.cpp` switches on. The enum
`ClientStates` is declared outside the translated files. -/
inductive ClientStates where
  | AUTHENTICATING
  | AUTHENTICATING_REMOTE_WAIT
  | IN_QUEUE
  | CHARACTER_LIST
  | IN_WORLD
  deriving DecidableEq, Repr

/-- One call made by the handler on `connection_` or on a service handle. The asynchronous
service calls record what their continuation captures. -/
inductive Call where
  | send (opcode : protocol.ServerOpcodes) (packet : protocol.ServerPacket)
  | close_session
  | latency (value : Nat)
  | set_authenticated (key : Nat)
  | locate_session (username : Bytes) (packet : protocol.CMSG_AUTH_SESSION)
  | retrieve_characters (account : Bytes)
  | create_character (account : Bytes) (character : Character)
  | delete_character (account : Bytes) (id : Nat)
  | enqueue (packet : protocol.CMSG_AUTH_SESSION)
  | dequeue
  | decrement
  deriving DecidableEq, Repr

/-- The members of `ClientHandler` that its code reads or writes, and the log of the calls
it has made so far (oldest first). `header_` is the header `handle_packet` is working on. -/
structure ClientHandler where
  state_ : ClientStates
  header_ : protocol.ClientHeader
  auth_seed_ : Nat
  account_name_ : Bytes
  calls : List Call
  deriving DecidableEq, Repr

namespace ClientHandler

open protocol

/-- Append one call to the log. -/
def call (h : ClientHandler) (c : Call) : ClientHandler :=
  { h with calls := h.calls ++ [c] }

/-- The member `packet_deserialise`: on a parse failure the session is closed and `false`
(here `none`) is returned. -/
def packet_deserialise {α : Type} (read : Bytes → Option α) (h : ClientHandler)
    (buffer : Bytes) : ClientHandler × Option α :=
  match read buffer with
  | none => (h.call Call.close_session, none)
  | some packet => (h, some packet)

/-- The member `handle_ping`. -/
def handle_ping (codec : Codec) (h : ClientHandler) (buffer : Bytes) : ClientHandler :=
  match packet_deserialise codec.ping h buffer with
  | (h1, none) => h1
  | (h1, some packet) =>
    (h1.call (Call.latency packet.latency)).call
      (Call.send ServerOpcodes.SMSG_PONG (ServerPacket.SMSG_PONG packet.sequence_id))

/-- The member `send_auth_challenge`. -/
def send_auth_challenge (h : ClientHandler) : ClientHandler :=
  let h1 := { h with auth_seed_ := 600 }
  let h2 := h1.call (Call.send ServerOpcodes.SMSG_AUTH_CHALLENGE (ServerPacket.SMSG_AUTH_CHALLENGE 600))
  { h2 with state_ := ClientStates.AUTHENTICATING }

/-- The member `send_auth_success`. -/
def send_auth_success (h : ClientHandler) : ClientHandler :=
  h.call (Call.send ServerOpcodes.SMSG_AUTH_RESPONSE (ServerPacket.SMSG_AUTH_RESPONSE ResultCode.AUTH_OK))

/-- The member `send_auth_fail`. -/
def send_auth_fail (h : ClientHandler) (result : ResultCode) : ClientHandler :=
  (h.call (Call.send ServerOpcodes.SMSG_AUTH_RESPONSE (ServerPacket.SMSG_AUTH_RESPONSE result))).call
    Call.close_session

/-- The hasher of `prove_session` after its five `update` calls. -/
def prove_session_hasher (h : ClientHandler) (key : Nat) (packet : CMSG_AUTH_SESSION) :
    Botan.SHA_160 :=
  let k_bytes := Botan.BigInt.encode key
  let unknown : Nat := 0
  let hasher : Botan.SHA_160 := {}
  let hasher := hasher.update packet.username
  let hasher := hasher.update (uint32_bytes unknown)
  let hasher := hasher.update (uint32_bytes packet.seed)
  let hasher := hasher.update (uint32_bytes h.auth_seed_)
  hasher.update k_bytes

/-- The lambda `auth_success` of `prove_session`. -/
def auth_success (h : ClientHandler) : ClientHandler :=
  send_auth_success { h with state_ := ClientStates.CHARACTER_LIST }

/-- The member `prove_session`; `sha` is SHA-1. The queue branch is kept with the
constant condition the source has. -/
def prove_session (sha : Bytes → Bytes) (h : ClientHandler) (key : Nat)
    (packet : CMSG_AUTH_SESSION) : ClientHandler :=
  let calc_hash := (prove_session_hasher h key packet).final sha
  if calc_hash ≠ packet.digest then
    send_auth_fail h ResultCode.AUTH_BAD_SERVER_PROOF
  else
    let h1 := h.call (Call.set_authenticated key)
    let h2 := { h1 with account_name_ := packet.username }
    if false then
      let h3 := { h2 with state_ := ClientStates.IN_QUEUE }
      h3.call (Call.enqueue packet)
    else
      auth_success h2

/-- The member `fetch_session_key`: the lookup is handed to the account service together
with a continuation that captures the packet. -/
def fetch_session_key (h : ClientHandler) (packet : CMSG_AUTH_SESSION) : ClientHandler :=
  h.call (Call.locate_session packet.username packet)

/-- The continuation of `fetch_session_key`, run on the connection's executor when the
account service answers with `remote_res` and `key`. -/
def locate_session_reply (sha : Bytes → Bytes) (h : ClientHandler) (packet : CMSG_AUTH_SESSION)
    (remote_res : messaging.account.Status) (key : Nat) : ClientHandler :=
  if remote_res ≠ messaging.account.Status.OK then
    let result :=
      match remote_res with
      | messaging.account.Status.ALREADY_LOGGED_IN => ResultCode.AUTH_ALREADY_ONLINE
      | messaging.account.Status.SESSION_NOT_FOUND => ResultCode.AUTH_UNKNOWN_ACCOUNT
      | _ => ResultCode.AUTH_SYSTEM_ERROR
    send_auth_fail h result
  else
    prove_session sha h key packet

/-- The member `handle_authentication`. -/
def handle_authentication (codec : Codec) (h : ClientHandler) (buffer : Bytes) : ClientHandler :=
  let h1 := { h with state_ := ClientStates.AUTHENTICATING_REMOTE_WAIT }
  if h1.header_.opcode ≠ ClientOpcodes.CMSG_AUTH_SESSION then
    h1.call Call.close_session
  else
    match packet_deserialise codec.auth_session h1 buffer with
    | (h2, none) => h2
    | (h2, some packet) => fetch_session_key h2 packet

/-- The member `send_character_list_fail`. -/
def send_character_list_fail (h : ClientHandler) : ClientHandler :=
  h.call (Call.send ServerOpcodes.SMSG_CHAR_CREATE (ServerPacket.SMSG_CHAR_CREATE ResultCode.AUTH_UNAVAILABLE))

/-- The member `send_character_list`. -/
def send_character_list (h : ClientHandler) (characters : List Character) : ClientHandler :=
  h.call (Call.send ServerOpcodes.SMSG_CHAR_ENUM (ServerPacket.SMSG_CHAR_ENUM characters))

/-- The member `handle_char_enum`. -/
def handle_char_enum (h : ClientHandler) (_buffer : Bytes) : ClientHandler :=
  h.call (Call.retrieve_characters h.account_name_)

/-- The continuation of `handle_char_enum`. -/
def retrieve_characters_reply (h : ClientHandler) (status : messaging.character.Status)
    (characters : List Character) : ClientHandler :=
  if status = messaging.character.Status.OK then
    send_character_list h characters
  else
    send_character_list_fail h

/-- The member `send_character_delete`. -/
def send_character_delete (h : ClientHandler) : ClientHandler :=
  h.call (Call.send ServerOpcodes.SMSG_CHAR_DELETE (ServerPacket.SMSG_CHAR_CREATE ResultCode.CHAR_DELETE_SUCCESS))

/-- The member `send_character_create`. -/
def send_character_create (h : ClientHandler) : ClientHandler :=
  h.call (Call.send ServerOpcodes.SMSG_CHAR_CREATE (ServerPacket.SMSG_CHAR_CREATE ResultCode.CHAR_CREATE_SUCCESS))

/-- The member `handle_char_create`. -/
def handle_char_create (codec : Codec) (h : ClientHandler) (buffer : Bytes) : ClientHandler :=
  match packet_deserialise codec.char_create h buffer with
  | (h1, none) => h1
  | (h1, some packet) => h1.call (Call.create_character h1.account_name_ packet.character)

/-- The continuation of `handle_char_create`: the status is not looked at. -/
def create_character_reply (h : ClientHandler) (_status : messaging.character.Status) :
    ClientHandler :=
  send_character_create h

/-- The member `handle_char_delete`. -/
def handle_char_delete (codec : Codec) (h : ClientHandler) (buffer : Bytes) : ClientHandler :=
  match packet_deserialise codec.char_delete h buffer with
  | (h1, none) => h1
  | (h1, some packet) => h1.call (Call.delete_character h1.account_name_ packet.id)

/-- The continuation of `handle_char_delete`. -/
def delete_character_reply (h : ClientHandler) (status : messaging.character.Status) :
    ClientHandler :=
  if status = messaging.character.Status.OK then send_character_delete h else h

/-- The member `handle_login`. -/
def handle_login (codec : Codec) (h : ClientHandler) (buffer : Bytes) : ClientHandler :=
  match packet_deserialise codec.player_login h buffer with
  | (h1, none) => h1
  | (h1, some _) => h1

/-- The member `handle_character_list`. -/
def handle_character_list (codec : Codec) (h : ClientHandler) (buffer : Bytes) : ClientHandler :=
  match h.header_.opcode with
  | ClientOpcodes.CMSG_CHAR_ENUM => handle_char_enum h buffer
  | ClientOpcodes.CMSG_CHAR_CREATE => handle_char_create codec h buffer
  | ClientOpcodes.CMSG_CHAR_DELETE => handle_char_delete codec h buffer
  | ClientOpcodes.CMSG_PLAYER_LOGIN => handle_login codec h buffer
  | _ => h

/-- The member `handle_in_world`. -/
def handle_in_world (h : ClientHandler) (_buffer : Bytes) : ClientHandler :=
  h

/-- The member `handle_packet`. -/
def handle_packet (codec : Codec) (h : ClientHandler) (header : ClientHeader)
    (buffer : Bytes) : ClientHandler :=
  let h1 := { h with header_ := header }
  match header.opcode with
  | ClientOpcodes.CMSG_PING => handle_ping codec h1 buffer
  | ClientOpcodes.CMSG_KEEP_ALIVE => h1
  | _ =>
    match h1.state_ with
    | ClientStates.AUTHENTICATING => handle_authentication codec h1 buffer
    | ClientStates.CHARACTER_LIST => handle_character_list codec h1 buffer
    | ClientStates.IN_WORLD => handle_in_world h1 buffer
    | _ => h1

/-- The member `start`. -/
def start (h : ClientHandler) : ClientHandler :=
  send_auth_challenge h

/-- The destructor of `ClientHandler`. -/
def destroy (h : ClientHandler) : ClientHandler :=
  match h.state_ with
  | ClientStates.CHARACTER_LIST => h.call Call.decrement
  | ClientStates.IN_WORLD => h.call Call.decrement
  | ClientStates.IN_QUEUE => h.call Call.dequeue
  | _ => h

end ClientHandler

/-! ## The login tier's authenticator -/

namespace srp6

/-- The group parameters `gen_` hands out: the safe prime and the generator. -/
structure Generator where
  prime : Nat
  generator : Nat
  deriving DecidableEq, Repr

/-- The compliance modes of the SRP6 library; the authenticator always asks for `GAME`. -/
inductive COMPLIANCE where
  | RFC5054
  | GAME
  deriving DecidableEq, Repr

/-- Modelled from the spec: the Login Exchange Session, that is the `srp6::Server` object.
It holds the group parameters, the stored verifier it was built from and the freshly drawn
private ephemeral. The class is declared outside the translated files. -/
structure Server where
  gen : Generator
  verifier : Bytes
  private_ephemeral : Nat
  deriving DecidableEq, Repr

/-- The strongly typed session key of the SRP6 library, as its bytes. -/
abbrev SessionKey := Bytes

/-- The SRP6 routines the authenticator calls. They are outside the translated files and are
parameters here; following the spec (section 4.1) each is a function of its arguments.
`bigint` is the conversion `Botan::BigInt(std::string)` applied to the stored salt. -/
structure Library where
  public_ephemeral : Server → Nat
  session_key : Server → Nat → Bool → COMPLIANCE → SessionKey
  generate_client_proof : Bytes → SessionKey → Nat → Nat → Nat → Nat → Nat → Nat
  generate_proof : Server → SessionKey → Nat → Nat
  bigint : Bytes → Nat

end srp6

/-- The accessors of the `User` record the authenticator reads. -/
structure User where
  username : Bytes
  salt : Bytes
  verifier : Bytes
  banned : Bool
  suspended : Bool
  deriving DecidableEq, Repr

/-- A client build: the four numbers of a game version. -/
structure GameVersion where
  major : Nat
  minor : Nat
  patch : Nat
  build : Nat
  deriving DecidableEq, Repr

/-- The C function `toupper` on one byte (in the C locale): lower-case ASCII letters are
moved to upper case, every other byte is left alone. -/
def toupper (c : Nat) : Nat :=
  if 97 ≤ c ∧ c ≤ 122 then c - 32 else c

namespace protocol

/-- Result codes of the login protocol named by `proof_check`. -/
inductive RESULT where
  | SUCCESS
  | FAIL_BANNED
  | FAIL_INCORRECT_PASSWORD
  | FAIL_SUSPENDED
  | FAIL_NO_TIME
  | FAIL_PARENTAL_CONTROLS
  deriving DecidableEq, Repr

/-- The two wire arrays of a `ClientLoginProof` that `proof_check` touches: the client's
public ephemeral `A` and its proof `M1`, in wire order. -/
structure ClientLoginProof where
  A : Bytes
  M1 : Bytes
  deriving DecidableEq, Repr

end protocol

/-- What `proof_check` returns: the result code and the server proof. -/
structure LoginResult where
  res : protocol.RESULT
  proof : Nat
  deriving DecidableEq, Repr

/-- The outcome classes of `verify_client_version`. -/
inductive PATCH_STATE where
  | OK
  | TOO_OLD
  | TOO_NEW
  deriving DecidableEq, Repr

/-- What a call into the user store or into the SRP6 library can throw: an object whose
type derives from `std::exception`, with its message, or an object of any other type. -/
inductive Thrown where
  | std_exception (what : String)
  | other (code : Nat)
  deriving DecidableEq, Repr

/-- The outcome classes of `check_account`. -/
inductive ACCOUNT_STATUS where
  | OK
  | NOT_FOUND
  | DAL_ERROR
  deriving DecidableEq, Repr

/-- The members of `Authenticator`: the allowed versions, the user record and the SRP6
server object set by `check_account` (both null before it), and the group parameters.
The user DAO it refers to is passed to `check_account`. -/
structure Authenticator where
  versions_ : List GameVersion
  user_ : Option User
  auth_ : Option srp6.Server
  gen_ : srp6.Generator
  deriving DecidableEq, Repr

namespace Authenticator

open protocol

/-- The member `check_account`. `users` is the lookup `users_.user`, which yields a record,
no record, or throws; `make_server` is the constructor of `srp6::Server`, which draws the
private ephemeral and may throw as well. The handler of the function-level `try` is
`catch(std::exception&)`: it turns a thrown `std::exception` into `DAL_ERROR`, and an object
of another type passes through it to the caller. The first component is the returned status
or the object that escapes, the second the authenticator as the call leaves it. -/
def check_account (users : Bytes → Except Thrown (Option User))
    (make_server : srp6.Generator → Bytes → Except Thrown srp6.Server) (a : Authenticator)
    (username : Bytes) : Except Thrown ACCOUNT_STATUS × Authenticator :=
  match users username with
  | Except.error (Thrown.std_exception _) => (Except.ok ACCOUNT_STATUS.DAL_ERROR, a)
  | Except.error (Thrown.other code) => (Except.error (Thrown.other code), a)
  | Except.ok user =>
    let a1 := { a with user_ := user }
    match user with
    | none => (Except.ok ACCOUNT_STATUS.NOT_FOUND, a1)
    | some u =>
      match make_server a1.gen_ u.verifier with
      | Except.error (Thrown.std_exception _) => (Except.ok ACCOUNT_STATUS.DAL_ERROR, a1)
      | Except.error (Thrown.other code) => (Except.error (Thrown.other code), a1)
      | Except.ok server => (Except.ok ACCOUNT_STATUS.OK, { a1 with auth_ := some server })

/-- The in-place `std::reverse` of the two wire arrays at the top of `proof_check`. -/
def reverse_arrays (proof : ClientLoginProof) : ClientLoginProof :=
  { proof with A := proof.A.reverse, M1 := proof.M1.reverse }

/-- Lines 63 to 85 of `proof_check`: everything the member does once the two integers `A`
and `M1` are decoded, for the user record, the SRP6 server object and the group parameters
the authenticator holds. -/
def proof_check_result (lib : srp6.Library) (user : User) (auth : srp6.Server)
    (gen : srp6.Generator) (user_upper : Bytes) (A M1 : Nat) : LoginResult :=
  let key := lib.session_key auth A true srp6.COMPLIANCE.GAME
  let B := lib.public_ephemeral auth
  let M1_S := lib.generate_client_proof user_upper key gen.prime gen.generator A B
    (lib.bigint user.salt)
  let res :=
    if M1 = M1_S then
      if user.banned then RESULT.FAIL_BANNED
      else if user.suspended then RESULT.FAIL_SUSPENDED
      else RESULT.SUCCESS
    else RESULT.FAIL_INCORRECT_PASSWORD
  { res := res, proof := lib.generate_proof auth key M1 }

/-- The member `proof_check`. The proof is passed by pointer and its arrays are reversed in
place, so the proof object as the call leaves it is returned next to the result; so is the
authenticator, none of whose members the call assigns. `none` stands for the call on an
authenticator whose `user_` or `auth_` is still null. -/
def proof_check (lib : srp6.Library) (a : Authenticator) (proof : ClientLoginProof) :
    Option (LoginResult × Authenticator × ClientLoginProof) :=
  match a.user_, a.auth_ with
  | some user, some auth =>
    let user_upper := user.username.map toupper
    let proof := reverse_arrays proof
    let A := Botan.BigInt.decode proof.A
    let M1 := Botan.BigInt.decode proof.M1
    some (proof_check_result lib user auth a.gen_ user_upper A M1, a, proof)
  | _, _ => none

/-- The loop of `verify_client_version`: the first allowed version that is greater than the
client's ends the walk with `true`. `gt` is `operator>` on `GameVersion`, which is declared
outside the translated files and is a parameter. -/
def any_newer (gt : GameVersion → GameVersion → Bool) (version : GameVersion) :
    List GameVersion → Bool
  | [] => false
  | v :: rest => if gt v version then true else any_newer gt version rest

/-- The member `verify_client_version`. The `std::find` compares with `operator==`, taken
to be equality of the four numbers. -/
def verify_client_version (gt : GameVersion → GameVersion → Bool) (a : Authenticator)
    (version : GameVersion) : PATCH_STATE :=
  if version ∈ a.versions_ then
    PATCH_STATE.OK
  else if any_newer gt version a.versions_ then
    PATCH_STATE.TOO_OLD
  else
    PATCH_STATE.TOO_NEW

end Authenticator

/-! ## The DBC definition parser -/

namespace rapidxml

/-- An attribute of an element: its name and its value. -/
structure xml_attribute where
  name : String
  value : String
  deriving DecidableEq, Repr

/-- A node of the parsed document with what the parser reads from it: its name (empty for
a text node), its value, its attributes and its child nodes, both in document order. A
null `xml_node` pointer that is walked with `next_sibling` is the list of the nodes from
it onwards, the null pointer being the empty list. -/
inductive xml_node where
  | mk (name value : String) (attributes : List xml_attribute) (children : List xml_node)

/-- The accessor `name()`. -/
def xml_node.name : xml_node → String
  | xml_node.mk name _ _ _ => name

/-- The accessor `value()`. -/
def xml_node.value : xml_node → String
  | xml_node.mk _ value _ _ => value

/-- The attributes of the node, first one first. -/
def xml_node.attributes : xml_node → List xml_attribute
  | xml_node.mk _ _ attributes _ => attributes

/-- The nodes `first_node()` and its `next_sibling()` chain run through. -/
def xml_node.children : xml_node → List xml_node
  | xml_node.mk _ _ _ children => children

/-- The accessor `first_attribute(name)`: the first attribute of that name, if any. -/
def xml_node.first_attribute (node : xml_node) (name : String) : Option xml_attribute :=
  node.attributes.find? (fun attr => attr.name == name)

end rapidxml

namespace dbc

open rapidxml

/-- How a parser call can end without a result: with a thrown `dbc::exception` carrying its
message, or by dereferencing a null node pointer. -/
inductive Failure where
  | exception (what : String)
  | null_dereference
  deriving DecidableEq, Repr

namespace types

/-- The record `types::Key`. Its declaration is outside the translated file; the members
are default-initialised as written here. The member `type` is spelled `type_`, as are the
other members called `type` or `alias` below, since both words are reserved. -/
structure Key where
  type_ : String := ""
  parent : String := ""
  ignore_type_mismatch : Bool := false
  deriving DecidableEq, Repr

/-- The record `types::Field`, with the members the parser assigns. -/
structure Field where
  name : String := ""
  underlying_type : String := ""
  comment : String := ""
  keys : List Key := []
  deriving DecidableEq, Repr

/-- The record `types::Enum`, with the members the parser assigns. -/
structure Enum where
  name : String := ""
  underlying_type : String := ""
  alias_ : String := ""
  comment : String := ""
  options : List (String × String) := []
  deriving DecidableEq, Repr

/-- What a `std::unique_ptr<types::Base>` can own: a struct, with its nested types, or an
enum. -/
inductive Base where
  | struct (name alias_ comment : String) (fields : List Field) (children : List Base)
  | enum (parsed : Enum)

/-- The record `types::Struct`, with the members the parser assigns. -/
structure Struct where
  name : String := ""
  alias_ : String := ""
  comment : String := ""
  fields : List Field := []
  children : List Base := []

/-- The call `std::make_unique<types::Struct>(parsed)`, seen as a pointer to the base. -/
def Struct.to_base (parsed : Struct) : Base :=
  Base.struct parsed.name parsed.alias_ parsed.comment parsed.fields parsed.children

/-- A parsed definition file: its top-level types. -/
abbrev Definition := List Base

end types

/-- The flags of `UniqueCheck`, all cleared by `UniqueCheck check{}`. -/
structure UniqueCheck where
  name : Bool := false
  type_ : Bool := false
  alias_ : Bool := false
  options : Bool := false
  deriving DecidableEq, Repr

namespace Parser

/-- The statement `throw exception(what)`. -/
def throw_exception {α : Type} (what : String) : Except Failure α :=
  Except.error (Failure.exception what)

/-- The loop of `parse_field_key` over the children of the `<key>` element. -/
def parse_field_key_nodes : List xml_node → types.Key → Except Failure types.Key
  | [], key => Except.ok key
  | node :: rest, key =>
    if node.name = "type" then
      parse_field_key_nodes rest { key with type_ := node.value }
    else if node.name = "parent" then
      parse_field_key_nodes rest { key with parent := node.value }
    else
      throw_exception ("Unexpected element in <key>: " ++ node.name)

/-- The member `parse_field_key`. -/
def parse_field_key (property : xml_node) : Except Failure types.Key :=
  let key : types.Key := {}
  match property.first_attribute "ignore-type-mismatch" with
  | some attr =>
    if attr.value = "true" ∨ attr.value = "1" then
      parse_field_key_nodes property.children { key with ignore_type_mismatch := true }
    else
      throw_exception
        (attr.value ++ " is not a valid attribute value for ignore-type-mismatch")
  | none => parse_field_key_nodes property.children key

/-- The inner loop of `parse_enum_options` over the attributes of one `<option>`. -/
def parse_enum_option_attributes :
    List xml_attribute → String × String → Except Failure (String × String)
  | [], kv => Except.ok kv
  | attr :: rest, kv =>
    if attr.name = "name" then
      parse_enum_option_attributes rest (attr.value, kv.2)
    else if attr.name = "value" then
      parse_enum_option_attributes rest (kv.1, attr.value)
    else
      throw_exception ("Unexpected attribute in <enum>: " ++ attr.name)

/-- The member `parse_enum_options`, as the loop over the nodes from `first_node()` on. -/
def parse_enum_options :
    List xml_node → List (String × String) → Except Failure (List (String × String))
  | [], key => Except.ok key
  | node :: rest, key =>
    if node.name ≠ "option" then
      throw_exception ("Unexpected node in <options>: " ++ node.name)
    else
      match parse_enum_option_attributes node.attributes ("", "") with
      | Except.error e => Except.error e
      | Except.ok kv => parse_enum_options rest (key ++ [kv])

/-- The member `assign_unique`: the new values of the two references it is given. -/
def assign_unique (flag : Bool) (node : xml_node) : Except Failure (String × Bool) :=
  if flag then
    throw_exception ("Multiple definitions of: " ++ node.name)
  else
    Except.ok (node.value, true)

/-- The member `parse_enum_node`. -/
def parse_enum_node (type_ : types.Enum) (check : UniqueCheck) (node : xml_node) :
    Except Failure (types.Enum × UniqueCheck) :=
  if node.name = "name" then
    match assign_unique check.name node with
    | Except.error e => Except.error e
    | Except.ok (value, flag) =>
      Except.ok ({ type_ with name := value }, { check with name := flag })
  else if node.name = "type" then
    match assign_unique check.type_ node with
    | Except.error e => Except.error e
    | Except.ok (value, flag) =>
      Except.ok ({ type_ with underlying_type := value }, { check with type_ := flag })
  else if node.name = "alias" then
    match assign_unique check.alias_ node with
    | Except.error e => Except.error e
    | Except.ok (value, flag) =>
      Except.ok ({ type_ with alias_ := value }, { check with alias_ := flag })
  else if node.name = "options" then
    if check.options then
      throw_exception "Multiple definitions of <options> not allowed"
    else
      match parse_enum_options node.children type_.options with
      | Except.error e => Except.error e
      | Except.ok options =>
        Except.ok ({ type_ with options := options }, { check with options := true })
  else
    throw_exception ("Unexpected node in <enum>: " ++ node.name)

/-- The member `parse_field_node`. -/
def parse_field_node (field : types.Field) (check : UniqueCheck) (node : xml_node) :
    Except Failure (types.Field × UniqueCheck) :=
  if node.name = "name" then
    match assign_unique check.name node with
    | Except.error e => Except.error e
    | Except.ok (value, flag) =>
      Except.ok ({ field with name := value }, { check with name := flag })
  else if node.name = "type" then
    match assign_unique check.type_ node with
    | Except.error e => Except.error e
    | Except.ok (value, flag) =>
      Except.ok ({ field with underlying_type := value }, { check with type_ := flag })
  else if node.name = "key" then
    match parse_field_key node with
    | Except.error e => Except.error e
    | Except.ok key => Except.ok ({ field with keys := field.keys ++ [key] }, check)
  else
    throw_exception ("Unknown node found in <field>: " ++ node.name)

/-- The loop of `parse_field` over the children of the `<field>` element. -/
def parse_field_nodes :
    List xml_node → types.Field × UniqueCheck → Except Failure (types.Field × UniqueCheck)
  | [], state => Except.ok state
  | node :: rest, (field, check) =>
    match parse_field_node field check node with
    | Except.error e => Except.error e
    | Except.ok state => parse_field_nodes rest state

/-- The member `parse_field`. -/
def parse_field (root : xml_node) : Except Failure types.Field :=
  let field : types.Field := {}
  let check : UniqueCheck := {}
  let field :=
    match root.first_attribute "comment" with
    | some attr => { field with comment := attr.value }
    | none => field
  match parse_field_nodes root.children (field, check) with
  | Except.error e => Except.error e
  | Except.ok (field, check) =>
    if !check.type_ || !check.name then
      throw_exception "A <field> must have at least <name> and <type> nodes"
    else
      Except.ok field

/-- The loop of `parse_enum` over `root` and its following siblings. -/
def parse_enum_nodes :
    List xml_node → types.Enum × UniqueCheck → Except Failure (types.Enum × UniqueCheck)
  | [], state => Except.ok state
  | node :: rest, (parsed, check) =>
    match parse_enum_node parsed check node with
    | Except.error e => Except.error e
    | Except.ok state => parse_enum_nodes rest state

/-- The member `parse_enum`, given `root` and its following siblings. The first statement
that touches `root` dereferences it, which fails on a null pointer. -/
def parse_enum (nodes : List xml_node) : Except Failure types.Enum :=
  match nodes with
  | [] => Except.error Failure.null_dereference
  | root :: _ =>
    let parsed : types.Enum := {}
    let check : UniqueCheck := {}
    let parsed :=
      match root.first_attribute "comment" with
      | some attr => { parsed with comment := attr.value }
      | none => parsed
    match parse_enum_nodes nodes (parsed, check) with
    | Except.error e => Except.error e
    | Except.ok (parsed, check) =>
      if !check.type_ || !check.name then
        throw_exception "An <enum> must have at least <name> and <type> nodes"
      else
        Except.ok parsed

/-- The member `parse_struct_node`. -/
def parse_struct_node (type_ : types.Struct) (check : UniqueCheck) (node : xml_node) :
    Except Failure (types.Struct × UniqueCheck) :=
  if node.name = "name" then
    match assign_unique check.name node with
    | Except.error e => Except.error e
    | Except.ok (value, flag) =>
      Except.ok ({ type_ with name := value }, { check with name := flag })
  else if node.name = "alias" then
    match assign_unique check.alias_ node with
    | Except.error e => Except.error e
    | Except.ok (value, flag) =>
      Except.ok ({ type_ with alias_ := value }, { check with alias_ := flag })
  else if node.name = "field" then
    match parse_field node with
    | Except.error e => Except.error e
    | Except.ok field => Except.ok ({ type_ with fields := type_.fields ++ [field] }, check)
  else
    throw_exception ("Unexpected node in <struct>: " ++ node.name)

/-- The head of `parse_struct`, up to its loop: the depth check, then the read of the
comment attribute through `root`, which fails on a null pointer. `max_parse_depth` is the
constant `MAX_PARSE_DEPTH`, declared outside the translated file. -/
def parse_struct_head (max_parse_depth : Nat) (nodes : List xml_node) (depth : Nat) :
    Except Failure (types.Struct × UniqueCheck) :=
  if depth > max_parse_depth then
    throw_exception "Struct nesting is too deep"
  else
    match nodes with
    | [] => Except.error Failure.null_dereference
    | root :: _ =>
      let parsed : types.Struct := {}
      let check : UniqueCheck := {}
      match root.first_attribute "comment" with
      | some attr => Except.ok ({ parsed with comment := attr.value }, check)
      | none => Except.ok (parsed, check)

/-- The tail of `parse_struct`, after its loop. -/
def parse_struct_tail (state : types.Struct × UniqueCheck) : Except Failure types.Struct :=
  if !state.2.name then
    throw_exception "A <struct> must have at least a <name> node"
  else
    Except.ok state.1

mutual

/-- The loop of `parse_struct` at nesting depth `depth`, over `root` and its following
siblings. -/
def parse_struct_nodes (max_parse_depth : Nat) (depth : Nat) :
    List xml_node → types.Struct × UniqueCheck → Except Failure (types.Struct × UniqueCheck)
  | [], state => Except.ok state
  | node :: rest, (parsed, check) =>
    if node.name = "struct" then
      match parse_struct_below max_parse_depth depth node with
      | Except.error e => Except.error e
      | Except.ok child =>
        parse_struct_nodes max_parse_depth depth rest
          ({ parsed with children := parsed.children ++ [child.to_base] }, check)
    else if node.name = "enum" then
      match parse_enum node.children with
      | Except.error e => Except.error e
      | Except.ok child =>
        parse_struct_nodes max_parse_depth depth rest
          ({ parsed with children := parsed.children ++ [types.Base.enum child] }, check)
    else
      match parse_struct_node parsed check node with
      | Except.error e => Except.error e
      | Except.ok state => parse_struct_nodes max_parse_depth depth rest state

/-- The recursive call `parse_struct(node->first_node(), depth + 1)` of the loop. -/
def parse_struct_below (max_parse_depth : Nat) (depth : Nat) :
    xml_node → Except Failure types.Struct
  | xml_node.mk _ _ _ children =>
    match parse_struct_head max_parse_depth children (depth + 1) with
    | Except.error e => Except.error e
    | Except.ok state =>
      match parse_struct_nodes max_parse_depth (depth + 1) children state with
      | Except.error e => Except.error e
      | Except.ok state => parse_struct_tail state

end

/-- The member `parse_struct`, given `root` and its following siblings. -/
def parse_struct (max_parse_depth : Nat) (nodes : List xml_node) (depth : Nat) :
    Except Failure types.Struct :=
  match parse_struct_head max_parse_depth nodes depth with
  | Except.error e => Except.error e
  | Except.ok state =>
    match parse_struct_nodes max_parse_depth depth nodes state with
    | Except.error e => Except.error e
    | Except.ok state => parse_struct_tail state

/-- The loop of `parse_doc_root` over `parent` and its following siblings. A top-level
struct is parsed with the default `depth` of the declaration, which is zero; a node that is
neither a struct nor an enum is skipped. -/
def parse_doc_root_nodes (max_parse_depth : Nat) :
    List xml_node → types.Definition → Except Failure types.Definition
  | [], definition => Except.ok definition
  | node :: rest, definition =>
    if node.name = "struct" then
      match parse_struct max_parse_depth node.children 0 with
      | Except.error e => Except.error e
      | Except.ok parsed =>
        parse_doc_root_nodes max_parse_depth rest (definition ++ [parsed.to_base])
    else if node.name = "enum" then
      match parse_enum node.children with
      | Except.error e => Except.error e
      | Except.ok parsed =>
        parse_doc_root_nodes max_parse_depth rest (definition ++ [types.Base.enum parsed])
    else
      parse_doc_root_nodes max_parse_depth rest definition

/-- The member `parse_doc_root`, given `parent` and its following siblings. -/
def parse_doc_root (max_parse_depth : Nat) (nodes : List xml_node) :
    Except Failure types.Definition :=
  parse_doc_root_nodes max_parse_depth nodes []

end Parser

end dbc

/-! ## Vocabulary of the statements -/

/-- The value of a wire array read little-endian: the sum over `i` of `wire[i] * 256 ^ i`. -/
def little_endian_value (wire : Bytes) : Nat :=
  ((List.range wire.length).map (fun i => wire.getD i 0 * 256 ^ i)).sum

/-- The wire array with bit `k` flipped: bit `k % 8` of byte `k / 8`. -/
def flip_bit (wire : Bytes) (k : Nat) : Bytes :=
  wire.set (k / 8) (wire.getD (k / 8) 0 ^^^ (1 <<< (k % 8)))

/-- The result code the spec assigns to a Directory status other than `OK`. -/
def directory_failure_code (status : messaging.account.Status) : protocol.ResultCode :=
  if status = messaging.account.Status.ALREADY_LOGGED_IN then protocol.ResultCode.AUTH_ALREADY_ONLINE
  else if status = messaging.account.Status.SESSION_NOT_FOUND then protocol.ResultCode.AUTH_UNKNOWN_ACCOUNT
  else protocol.ResultCode.AUTH_SYSTEM_ERROR

/-- The auth-response packet with the given result code, as a logged `send`. -/
def auth_response (result : protocol.ResultCode) : Call :=
  Call.send protocol.ServerOpcodes.SMSG_AUTH_RESPONSE (protocol.ServerPacket.SMSG_AUTH_RESPONSE result)

/-- The client proof as submitted: the wire array `M1` read little-endian. -/
def submitted_client_proof (proof : protocol.ClientLoginProof) : Nat :=
  little_endian_value proof.M1

/-- The client proof the server recomputes for a submission: `generate_client_proof` on the
upper-cased user name, the session key derived from the submitted `A`, the group
parameters, both public ephemerals and the salt. -/
def recomputed_client_proof (lib : srp6.Library) (a : Authenticator) (user : User)
    (auth : srp6.Server) (proof : protocol.ClientLoginProof) : Nat :=
  lib.generate_client_proof (user.username.map toupper)
    (lib.session_key auth (little_endian_value proof.A) true srp6.COMPLIANCE.GAME)
    a.gen_.prime a.gen_.generator (little_endian_value proof.A) (lib.public_ephemeral auth)
    (lib.bigint user.salt)

/-- The server proof for a submission: `generate_proof` on the session key derived from the
submitted `A` and on the submitted client proof. -/
def server_proof (lib : srp6.Library) (auth : srp6.Server) (proof : protocol.ClientLoginProof) :
    Nat :=
  lib.generate_proof auth
    (lib.session_key auth (little_endian_value proof.A) true srp6.COMPLIANCE.GAME)
    (little_endian_value proof.M1)

/-- What the connection's executor can hand to one handler: an inbound packet, or the
answer of a service to an earlier asynchronous call. A Directory reply carries the packet
its continuation captured; the statements below hold for arbitrary replies, hence for those
that answer a lookup the handler issued. -/
inductive Event where
  | packet (header : protocol.ClientHeader) (buffer : Bytes)
  | locate_session_reply (packet : protocol.CMSG_AUTH_SESSION)
      (remote_res : messaging.account.Status) (key : Nat)
  | retrieve_characters_reply (status : messaging.character.Status)
      (characters : List Character)
  | create_character_reply (status : messaging.character.Status)
  | delete_character_reply (status : messaging.character.Status)
  deriving DecidableEq, Repr

/-- The handler processes one event to completion. -/
def process (codec : protocol.Codec) (sha : Bytes → Bytes) (h : ClientHandler) :
    Event → ClientHandler
  | Event.packet header buffer => ClientHandler.handle_packet codec h header buffer
  | Event.locate_session_reply packet remote_res key =>
    ClientHandler.locate_session_reply sha h packet remote_res key
  | Event.retrieve_characters_reply status characters =>
    ClientHandler.retrieve_characters_reply h status characters
  | Event.create_character_reply status => ClientHandler.create_character_reply h status
  | Event.delete_character_reply status => ClientHandler.delete_character_reply h status

/-- The handler processes a sequence of events, one after the other. -/
def run (codec : protocol.Codec) (sha : Bytes → Bytes) (h : ClientHandler)
    (events : List Event) : ClientHandler :=
  events.foldl (process codec sha) h

/-- Whether a logged call is a Directory lookup. -/
def Call.is_locate_session : Call → Bool
  | Call.locate_session _ _ => true
  | _ => false

/-- Whether a logged call is an `enqueue` on the queue service. -/
def Call.is_enqueue : Call → Bool
  | Call.enqueue _ => true
  | _ => false

/-- Whether a logged call is a `dequeue` on the queue service. -/
def Call.is_dequeue : Call → Bool
  | Call.dequeue => true
  | _ => false

/-- The packets a list of logged calls sends to the client, in order. -/
def sent_packets : List Call → List protocol.ServerPacket
  | [] => []
  | Call.send _ packet :: rest => packet :: sent_packets rest
  | _ :: rest => sent_packets rest

/-- The number of Directory lookups in the handler's log. -/
def lookups (h : ClientHandler) : Nat :=
  h.calls.countP Call.is_locate_session

/-- The codec is consulted for the opcode and fails on the buffer. Only the five opcodes
whose handler deserialises a packet have a parser. -/
def parse_fails (codec : protocol.Codec) (opcode : protocol.ClientOpcodes) (buffer : Bytes) :
    Bool :=
  match opcode with
  | protocol.ClientOpcodes.CMSG_PING => (codec.ping buffer).isNone
  | protocol.ClientOpcodes.CMSG_AUTH_SESSION => (codec.auth_session buffer).isNone
  | protocol.ClientOpcodes.CMSG_CHAR_CREATE => (codec.char_create buffer).isNone
  | protocol.ClientOpcodes.CMSG_CHAR_DELETE => (codec.char_delete buffer).isNone
  | protocol.ClientOpcodes.CMSG_PLAYER_LOGIN => (codec.player_login buffer).isNone
  | _ => false

/-- The dispatcher hands the opcode to the handler that deserialises it: a ping in every
state, a session-auth packet while authenticating, a character creation, deletion or login
request in the character list. -/
def routed_to_handler : ClientStates → protocol.ClientOpcodes → Bool
  | _, protocol.ClientOpcodes.CMSG_PING => true
  | ClientStates.AUTHENTICATING, protocol.ClientOpcodes.CMSG_AUTH_SESSION => true
  | ClientStates.CHARACTER_LIST, protocol.ClientOpcodes.CMSG_CHAR_CREATE => true
  | ClientStates.CHARACTER_LIST, protocol.ClientOpcodes.CMSG_CHAR_DELETE => true
  | ClientStates.CHARACTER_LIST, protocol.ClientOpcodes.CMSG_PLAYER_LOGIN => true
  | _, _ => false

/-- Whether the node is an element of the given name. -/
def named (tag : String) (node : rapidxml.xml_node) : Bool :=
  node.name == tag

/-- The statement `nested_struct k nodes` says that among `nodes` and what lies below them
there is a `<struct>` element nested inside `k` other `<struct>` elements, each the child
of the one before and the outermost one a member of `nodes`. -/
inductive nested_struct : Nat → List rapidxml.xml_node → Prop where
  | top (node : rapidxml.xml_node) (nodes : List rapidxml.xml_node) :
      node ∈ nodes → node.name = "struct" → nested_struct 0 nodes
  | inside (node : rapidxml.xml_node) (nodes : List rapidxml.xml_node) (k : Nat) :
      node ∈ nodes → node.name = "struct" → nested_struct k node.children →
      nested_struct (k + 1) nodes

/-- A well-formed `<struct>` element that holds its `<name>` and, for `k + 1`, one more
such element: the innermost struct of `tower k` is nested inside `k` others. -/
def tower : Nat → rapidxml.xml_node
  | 0 => rapidxml.xml_node.mk "struct" "" [] [rapidxml.xml_node.mk "name" "s" [] []]
  | k + 1 =>
    rapidxml.xml_node.mk "struct" "" [] [rapidxml.xml_node.mk "name" "s" [] [], tower k]

/-- What parsing `tower k` yields when it is accepted. -/
def tower_parsed : Nat → dbc.types.Struct
  | 0 => { name := "s" }
  | k + 1 => { name := "s", children := [(tower_parsed k).to_base] }

/-! ## Concrete instances used to exercise the statements -/

namespace sample

/-- A codec that parses the first byte of the buffer into every field it needs and fails on
an empty buffer. -/
def codec : protocol.Codec where
  ping := fun b => b.head?.map (fun x => { sequence_id := x, latency := x })
  auth_session := fun b => b.head?.map (fun x => { username := [x], seed := x, digest := [x] })
  char_create := fun b => b.head?.map (fun x => { character := [x] })
  char_delete := fun b => b.head?.map (fun x => { id := x })
  player_login := fun b => b.head?.map (fun x => { character_id := x })

/-- A handler as constructed, before `start`. -/
def fresh : ClientHandler where
  state_ := ClientStates.AUTHENTICATING
  header_ := { size := 0, opcode := protocol.ClientOpcodes.OTHER 0 }
  auth_seed_ := 0
  account_name_ := []
  calls := []

/-- The handler right after `start`: it has sent its challenge and is `AUTHENTICATING`. -/
def started : ClientHandler :=
  ClientHandler.start fresh

/-- A session-auth packet for the account name `AB`. -/
def auth_packet : protocol.CMSG_AUTH_SESSION where
  username := [65, 66]
  seed := 7
  digest := [1, 2, 3]

/-- A stand-in digest function: the length of the input, as one byte string. -/
def sha (input : Bytes) : Bytes :=
  [input.length]

/-- The started handler after a parsable session-auth packet: the lookup is out and the
handler waits for the Directory. -/
def waiting : ClientHandler :=
  ClientHandler.handle_packet codec started
    { size := 1, opcode := protocol.ClientOpcodes.CMSG_AUTH_SESSION } [14]

/-- The waiting handler after the Directory answered `OK` with the key `5` and the digest
matched: the account is bound and the handler serves the character list. -/
def character_list : ClientHandler :=
  { waiting with
    state_ := ClientStates.CHARACTER_LIST
    account_name_ := [14]
    calls := waiting.calls ++ [Call.set_authenticated 5, auth_response protocol.ResultCode.AUTH_OK] }

/-- Two allowed client builds. -/
def versions : List GameVersion :=
  [{ major := 1, minor := 12, patch := 1, build := 5875 },
   { major := 1, minor := 12, patch := 2, build := 6005 }]

/-- A stand-in for `operator>` on versions: the comparison of the build numbers. -/
def newer (x y : GameVersion) : Bool :=
  decide (y.build < x.build)

/-- Stand-ins for the SRP6 routines, simple enough to follow by hand: the recomputed client
proof is the submitted `A` plus one, the server proof is the client proof plus the key's
single byte. -/
def lib : srp6.Library where
  public_ephemeral := fun s => s.private_ephemeral + 1
  session_key := fun _ A _ _ => [A % 256]
  generate_client_proof := fun _ _ _ _ A _ _ => A + 1
  generate_proof := fun _ key M1 => M1 + key.sum
  bigint := Botan.BigInt.decode

/-- An account in good standing. -/
def user : User where
  username := [116, 101, 115, 116]
  salt := [9]
  verifier := [5]
  banned := false
  suspended := false

/-- The user store holding just `user`. -/
def users (name : Bytes) : Except Thrown (Option User) :=
  if name = user.username then Except.ok (some user) else Except.ok none

/-- An authenticator as constructed: `user_` and `auth_` are null. -/
def blank : Authenticator where
  versions_ := []
  user_ := none
  auth_ := none
  gen_ := { prime := 23, generator := 7 }

/-- A server constructor that always draws the private ephemeral `11`. -/
def make_server (gen : srp6.Generator) (verifier : Bytes) : Except Thrown srp6.Server :=
  Except.ok { gen := gen, verifier := verifier, private_ephemeral := 11 }

/-- The SRP6 server object `make_server` builds for `user`. -/
def server : srp6.Server where
  gen := { prime := 23, generator := 7 }
  verifier := [5]
  private_ephemeral := 11

/-- A user store whose lookup throws an object that is not a `std::exception`. -/
def throwing_users (_name : Bytes) : Except Thrown (Option User) :=
  Except.error (Thrown.other 42)

/-- The authenticator after `check_account` found `user`. -/
def authenticator : Authenticator :=
  (Authenticator.check_account users make_server blank user.username).2

/-- A login proof whose wire arrays read `A = 2` and `M1 = 3`: 32 and 20 bytes, least
significant byte first. -/
def proof : protocol.ClientLoginProof where
  A := 2 :: List.replicate 31 0
  M1 := 3 :: List.replicate 19 0

/-- A `<key>` element that sets `ignore-type-mismatch` and names a type and a parent. -/
def key_node : rapidxml.xml_node :=
  rapidxml.xml_node.mk "key" "" [{ name := "ignore-type-mismatch", value := "1" }]
    [rapidxml.xml_node.mk "type" "foreign" [] [], rapidxml.xml_node.mk "parent" "Map" [] []]

/-- A `<key>` element without attributes. -/
def plain_key_node : rapidxml.xml_node :=
  rapidxml.xml_node.mk "key" "" [] [rapidxml.xml_node.mk "type" "primary" [] []]

/-- A `<key>` element whose attribute says `false`. -/
def false_key_node : rapidxml.xml_node :=
  rapidxml.xml_node.mk "key" "" [{ name := "ignore-type-mismatch", value := "false" }]
    [rapidxml.xml_node.mk "type" "foreign" [] []]

/-- A `<field>` element with a name, a type and two keys. -/
def field_node : rapidxml.xml_node :=
  rapidxml.xml_node.mk "field" "" [{ name := "comment", value := "the map" }]
    [rapidxml.xml_node.mk "name" "map_id" [] [], plain_key_node,
      rapidxml.xml_node.mk "type" "uint32" [] [], key_node]

/-- A definition with two faults: its struct defines `<name>` twice, and behind that it
nests a struct inside two others. -/
def doubly_wrong : List rapidxml.xml_node :=
  [rapidxml.xml_node.mk "struct" "" []
    [rapidxml.xml_node.mk "name" "a" [] [], rapidxml.xml_node.mk "name" "b" [] [],
      rapidxml.xml_node.mk "struct" "" []
        [rapidxml.xml_node.mk "name" "c" [] [],
          rapidxml.xml_node.mk "struct" "" [] [rapidxml.xml_node.mk "name" "d" [] []]]]]

end sample

/-! ## Arithmetic of the byte encodings -/

theorem little_endian_value_cons (b : Nat) (l : Bytes) :
    little_endian_value (b :: l) = b + 256 * little_endian_value l := by
  simp only [little_endian_value, List.length_cons, List.range_succ_eq_map, List.map_cons,
    List.sum_cons, List.map_map, List.getD_cons_zero, pow_zero, mul_one]
  congr 1
  rw [← List.sum_map_mul_left]
  congr 1
  apply List.map_congr_left
  intro i _
  simp only [Function.comp, List.getD_cons_succ, pow_succ]
  ring

theorem decode_append_singleton (l : Bytes) (b : Nat) :
    Botan.BigInt.decode (l ++ [b]) = Botan.BigInt.decode l * 256 + b := by
  simp [Botan.BigInt.decode, List.foldl_append]

theorem decode_reverse (l : Bytes) :
    Botan.BigInt.decode l.reverse = little_endian_value l := by
  induction l with
  | nil => simp [Botan.BigInt.decode, little_endian_value]
  | cons b l ih =>
    rw [List.reverse_cons, decode_append_singleton, ih, little_endian_value_cons]
    ring

theorem little_endian_value_set (l : Bytes) (i x : Nat) (hi : i < l.length) :
    little_endian_value (l.set i x) + l.getD i 0 * 256 ^ i =
      little_endian_value l + x * 256 ^ i := by
  induction l generalizing i with
  | nil => simp at hi
  | cons b l ih =>
    cases i with
    | zero =>
      simp only [List.set_cons_zero, little_endian_value_cons, List.getD_cons_zero, pow_zero]
      ring
    | succ i =>
      have hi2 : i < l.length := by simpa using hi
      have h := ih i hi2
      simp only [List.set_cons_succ, little_endian_value_cons, List.getD_cons_succ, pow_succ]
      nlinarith [h]

theorem xor_bit_ne (a j : Nat) : a ^^^ (1 <<< j) ≠ a := by
  intro h
  have h2 : a ^^^ (a ^^^ (1 <<< j)) = a ^^^ a := by rw [h]
  rw [← Nat.xor_assoc, Nat.xor_self, Nat.zero_xor] at h2
  simp [Nat.shiftLeft_eq] at h2

theorem little_endian_value_flip_bit (l : Bytes) (k : Nat) (hk : k / 8 < l.length) :
    little_endian_value (flip_bit l k) ≠ little_endian_value l := by
  intro h
  have hset := little_endian_value_set l (k / 8) (l.getD (k / 8) 0 ^^^ (1 <<< (k % 8))) hk
  rw [flip_bit] at h
  rw [h] at hset
  have hpos : 0 < 256 ^ (k / 8) := by positivity
  have hmul := Nat.add_left_cancel hset
  exact xor_bit_ne _ _ (Nat.eq_of_mul_eq_mul_right hpos hmul).symm

theorem proof_check_eq (lib : srp6.Library) (a : Authenticator)
    (proof : protocol.ClientLoginProof) (user : User) (auth : srp6.Server)
    (huser : a.user_ = some user) (hauth : a.auth_ = some auth) :
    Authenticator.proof_check lib a proof =
      some (Authenticator.proof_check_result lib user auth a.gen_ (user.username.map toupper)
        (little_endian_value proof.A) (little_endian_value proof.M1), a,
        Authenticator.reverse_arrays proof) := by
  simp [Authenticator.proof_check, huser, hauth, Authenticator.reverse_arrays, decode_reverse]

theorem proof_check_some (lib : srp6.Library) (a a1 : Authenticator)
    (proof p1 : protocol.ClientLoginProof) (r : LoginResult)
    (h : Authenticator.proof_check lib a proof = some (r, a1, p1)) :
    ∃ user auth, a.user_ = some user ∧ a.auth_ = some auth := by
  unfold Authenticator.proof_check at h
  split at h
  · next user auth hu ha => exact ⟨user, auth, hu, ha⟩
  · simp at h

theorem reverse_arrays_reverse_arrays (proof : protocol.ClientLoginProof) :
    Authenticator.reverse_arrays (Authenticator.reverse_arrays proof) = proof := by
  simp [Authenticator.reverse_arrays]

namespace ClientHandler

open protocol

/-- C1, as stated, fails, at three packets that are not session-auth packets and reach the
started handler in state `AUTHENTICATING`: a keep-alive is swallowed before the state switch
and nothing is closed; a ping that parses is answered with a pong and nothing is closed; and
a char-enum request closes the connection but leaves `state_` changed, at
`AUTHENTICATING_REMOTE_WAIT`. -/
theorem keep_alive_while_authenticating_does_not_close :
    sample.started.state_ = ClientStates.AUTHENTICATING ∧
      Call.close_session ∉
        (handle_packet sample.codec sample.started
          { size := 0, opcode := ClientOpcodes.CMSG_KEEP_ALIVE } []).calls ∧
      (handle_packet sample.codec sample.started
          { size := 1, opcode := ClientOpcodes.CMSG_PING } [42]).calls =
        sample.started.calls ++ [Call.latency 42,
          Call.send ServerOpcodes.SMSG_PONG (ServerPacket.SMSG_PONG 42)] ∧
      (handle_packet sample.codec sample.started
          { size := 0, opcode := ClientOpcodes.CMSG_CHAR_ENUM } []).state_ =
        ClientStates.AUTHENTICATING_REMOTE_WAIT := by
  decide

/-- C1, amended: in state `AUTHENTICATING` no packet other than a session-auth packet makes
`handle_packet` issue a Directory lookup. If its opcode is neither ping nor keep-alive, the
handler logs exactly one call, `close_session` (so nothing is sent), and apart from the
header being recorded the only member that changes is `state_`, which is left at
`AUTHENTICATING_REMOTE_WAIT`. A keep-alive only has its header recorded. A ping leaves
`state_` alone: when the codec cannot parse it the one call is `close_session`, and when it
parses the handler logs the latency and one pong and closes nothing. -/
theorem handle_packet_authenticating_wrong_opcode (codec : Codec) (h : ClientHandler)
    (header : ClientHeader) (buffer : Bytes)
    (hstate : h.state_ = ClientStates.AUTHENTICATING)
    (hauth : header.opcode ≠ ClientOpcodes.CMSG_AUTH_SESSION) :
    lookups (handle_packet codec h header buffer) = lookups h ∧
      (header.opcode ≠ ClientOpcodes.CMSG_PING →
        header.opcode ≠ ClientOpcodes.CMSG_KEEP_ALIVE →
        handle_packet codec h header buffer =
          { h with
            header_ := header
            state_ := ClientStates.AUTHENTICATING_REMOTE_WAIT
            calls := h.calls ++ [Call.close_session] }) ∧
      (header.opcode = ClientOpcodes.CMSG_KEEP_ALIVE →
        handle_packet codec h header buffer = { h with header_ := header }) ∧
      (header.opcode = ClientOpcodes.CMSG_PING →
        (codec.ping buffer = none →
          handle_packet codec h header buffer =
            { h with header_ := header, calls := h.calls ++ [Call.close_session] }) ∧
        ∀ packet : CMSG_PING, codec.ping buffer = some packet →
          handle_packet codec h header buffer =
            { h with
              header_ := header
              calls := h.calls ++ [Call.latency packet.latency,
                Call.send ServerOpcodes.SMSG_PONG
                  (ServerPacket.SMSG_PONG packet.sequence_id)] }) := by
  obtain ⟨size, opcode⟩ := header
  cases opcode <;> cases hp : codec.ping buffer <;>
    simp_all [handle_packet, handle_authentication, handle_ping, packet_deserialise, call,
      lookups, List.countP_append, Call.is_locate_session]

/-- The amended C1 at two concrete packets sent right after `start`: a char-enum request,
which closes the connection, and a ping the codec cannot parse, which closes it too. -/
theorem handle_packet_authenticating_wrong_opcode_witness :
    handle_packet sample.codec sample.started
        { size := 0, opcode := ClientOpcodes.CMSG_CHAR_ENUM } [] =
      { sample.started with
        header_ := { size := 0, opcode := ClientOpcodes.CMSG_CHAR_ENUM }
        state_ := ClientStates.AUTHENTICATING_REMOTE_WAIT
        calls := sample.started.calls ++ [Call.close_session] } ∧
      handle_packet sample.codec sample.started
        { size := 0, opcode := ClientOpcodes.CMSG_PING } [] =
      { sample.started with
        header_ := { size := 0, opcode := ClientOpcodes.CMSG_PING }
        calls := sample.started.calls ++ [Call.close_session] } :=
  ⟨(handle_packet_authenticating_wrong_opcode sample.codec sample.started
      { size := 0, opcode := ClientOpcodes.CMSG_CHAR_ENUM } [] (by decide) (by decide)).2.1
      (by decide) (by decide),
    ((handle_packet_authenticating_wrong_opcode sample.codec sample.started
      { size := 0, opcode := ClientOpcodes.CMSG_PING } [] (by decide) (by decide)).2.2.2
      rfl).1 rfl⟩

/-- C2: on a Directory reply whose status is not `OK` the continuation logs exactly two
calls, one auth-response carrying the code mapped from the status and then `close_session`,
and changes nothing else. No `set_authenticated` is logged, and the outcome is the same
whatever the digest function, the key and the packet are: the verifier is not consulted. -/
theorem locate_session_reply_not_ok (sha : Bytes → Bytes) (h : ClientHandler)
    (packet : CMSG_AUTH_SESSION) (remote_res : messaging.account.Status) (key : Nat)
    (hres : remote_res ≠ messaging.account.Status.OK) :
    locate_session_reply sha h packet remote_res key =
        { h with calls := h.calls ++ [auth_response (directory_failure_code remote_res),
                                      Call.close_session] } ∧
      (remote_res = messaging.account.Status.ALREADY_LOGGED_IN →
        directory_failure_code remote_res = ResultCode.AUTH_ALREADY_ONLINE) ∧
      (remote_res = messaging.account.Status.SESSION_NOT_FOUND →
        directory_failure_code remote_res = ResultCode.AUTH_UNKNOWN_ACCOUNT) ∧
      (remote_res ≠ messaging.account.Status.ALREADY_LOGGED_IN →
        remote_res ≠ messaging.account.Status.SESSION_NOT_FOUND →
        directory_failure_code remote_res = ResultCode.AUTH_SYSTEM_ERROR) ∧
      (∀ k, Call.set_authenticated k ∉
        (locate_session_reply sha h packet remote_res key).calls.drop h.calls.length) ∧
      (∀ sha2 packet2 key2, locate_session_reply sha2 h packet2 remote_res key2 =
        locate_session_reply sha h packet remote_res key) := by
  have main : ∀ (f : Bytes → Bytes) (q : CMSG_AUTH_SESSION) (k : Nat),
      locate_session_reply f h q remote_res k =
        { h with calls := h.calls ++ [auth_response (directory_failure_code remote_res),
                                      Call.close_session] } := by
    intro f q k
    cases remote_res <;>
      simp_all [locate_session_reply, send_auth_fail, call, auth_response, directory_failure_code]
  refine ⟨main sha packet key, ?_, ?_, ?_, ?_, ?_⟩
  · intro e; simp [e, directory_failure_code]
  · intro e; simp [e, directory_failure_code]
  · intro e1 e2; simp [e1, e2, directory_failure_code]
  · intro k
    rw [main sha packet key]
    simp [auth_response]
  · intro sha2 packet2 key2
    rw [main sha2 packet2 key2, main sha packet key]

/-- C2 at a concrete reply: an unspecified remote error reaching the started handler. -/
theorem locate_session_reply_not_ok_witness :
    messaging.account.Status.OTHER 3 ≠ messaging.account.Status.OK ∧
      locate_session_reply sample.sha sample.started sample.auth_packet
          (messaging.account.Status.OTHER 3) 5 =
        { sample.started with
          calls := sample.started.calls ++ [auth_response ResultCode.AUTH_SYSTEM_ERROR,
                                            Call.close_session] } :=
  ⟨by decide,
    (locate_session_reply_not_ok sample.sha sample.started sample.auth_packet
      (messaging.account.Status.OTHER 3) 5 (by decide)).1⟩

/-- C3: on a Directory reply with status `OK` the continuation is `prove_session`, which
accepts exactly when the digest recomputed by its hasher equals the packet's digest. On a
match it logs `set_authenticated key` and then one auth-response `AUTH_OK` (no close), binds
`account_name_` to the packet's username and sets `state_` to `CHARACTER_LIST`; on a mismatch
it logs one auth-response `AUTH_BAD_SERVER_PROOF` and then `close_session`, and leaves
`state_` and `account_name_` as they were. -/
theorem prove_session_accepts_iff_digest_matches (sha : Bytes → Bytes) (h : ClientHandler)
    (packet : CMSG_AUTH_SESSION) (key : Nat) :
    locate_session_reply sha h packet messaging.account.Status.OK key =
        prove_session sha h key packet ∧
      prove_session sha h key packet =
        if (prove_session_hasher h key packet).final sha = packet.digest then
          { h with
            state_ := ClientStates.CHARACTER_LIST
            account_name_ := packet.username
            calls := h.calls ++ [Call.set_authenticated key, auth_response ResultCode.AUTH_OK] }
        else
          { h with
            calls := h.calls ++ [auth_response ResultCode.AUTH_BAD_SERVER_PROOF,
                                 Call.close_session] } := by
  constructor
  · simp [locate_session_reply]
  · by_cases hd : (prove_session_hasher h key packet).final sha = packet.digest <;>
      simp [prove_session, hd, send_auth_fail, auth_success, send_auth_success, call,
        auth_response]

end ClientHandler

/-! ## The login exchange -/

namespace Authenticator

open protocol

/-- C5: `proof_check` returns `FAIL_INCORRECT_PASSWORD` when the submitted proof differs from
the recomputed one; when they are equal it returns `FAIL_BANNED` for a banned account
(suspended or not), otherwise `FAIL_SUSPENDED` for a suspended one, otherwise `SUCCESS`. -/
theorem proof_check_result_code (lib : srp6.Library) (a : Authenticator)
    (proof : ClientLoginProof) (user : User) (auth : srp6.Server)
    (huser : a.user_ = some user) (hauth : a.auth_ = some auth) :
    ∃ r, proof_check lib a proof = some (r, a, reverse_arrays proof) ∧
      (submitted_client_proof proof ≠ recomputed_client_proof lib a user auth proof →
        r.res = RESULT.FAIL_INCORRECT_PASSWORD) ∧
      (submitted_client_proof proof = recomputed_client_proof lib a user auth proof →
        user.banned = true → r.res = RESULT.FAIL_BANNED) ∧
      (submitted_client_proof proof = recomputed_client_proof lib a user auth proof →
        user.banned = false → user.suspended = true → r.res = RESULT.FAIL_SUSPENDED) ∧
      (submitted_client_proof proof = recomputed_client_proof lib a user auth proof →
        user.banned = false → user.suspended = false → r.res = RESULT.SUCCESS) := by
  refine ⟨_, proof_check_eq lib a proof user auth huser hauth, ?_, ?_, ?_, ?_⟩ <;>
    simp only [submitted_client_proof, recomputed_client_proof, proof_check_result] <;>
    intros <;> simp_all

/-- C5 at a concrete submission: the sample account in good standing, with a matching proof. -/
theorem proof_check_result_code_witness :
    ∃ r, proof_check sample.lib sample.authenticator sample.proof =
        some (r, sample.authenticator, reverse_arrays sample.proof) ∧
      r.res = RESULT.SUCCESS := by
  obtain ⟨r, h, _, _, _, hok⟩ :=
    proof_check_result_code sample.lib sample.authenticator sample.proof sample.user
      sample.server
      (by decide) (by decide)
  exact ⟨r, h, hok (by decide) (by decide) (by decide)⟩

/-- C6: if a 20-byte client proof equals the recomputed proof, then the same submission with
any one of its 160 bits flipped is answered `FAIL_INCORRECT_PASSWORD`, whatever the
account's banned and suspended flags are. -/
theorem proof_check_bit_flip (lib : srp6.Library) (a : Authenticator)
    (proof : ClientLoginProof) (user : User) (auth : srp6.Server)
    (huser : a.user_ = some user) (hauth : a.auth_ = some auth)
    (hlen : proof.M1.length = 20)
    (hmatch : submitted_client_proof proof = recomputed_client_proof lib a user auth proof)
    (k : Nat) (hk : k < 160) :
    ∃ r p1, proof_check lib a { proof with M1 := flip_bit proof.M1 k } = some (r, a, p1) ∧
      r.res = RESULT.FAIL_INCORRECT_PASSWORD := by
  have hidx : k / 8 < proof.M1.length := by omega
  have hne := little_endian_value_flip_bit proof.M1 k hidx
  refine ⟨_, _, proof_check_eq lib a _ user auth huser hauth, ?_⟩
  simp only [submitted_client_proof, recomputed_client_proof] at hmatch
  simp only [proof_check_result]
  rw [if_neg]
  rw [← hmatch]
  exact hne

/-- C6 at a concrete submission: bit 9 of the sample proof flipped. -/
theorem proof_check_bit_flip_witness :
    sample.proof.M1.length = 20 ∧
      submitted_client_proof sample.proof =
        recomputed_client_proof sample.lib sample.authenticator sample.user
          sample.server
          sample.proof ∧
      ∃ r p1, proof_check sample.lib sample.authenticator
          { sample.proof with M1 := flip_bit sample.proof.M1 9 } =
            some (r, sample.authenticator, p1) ∧
        r.res = RESULT.FAIL_INCORRECT_PASSWORD :=
  ⟨by decide, by decide,
    proof_check_bit_flip sample.lib sample.authenticator sample.proof sample.user
      sample.server
      (by decide) (by decide) (by decide) (by decide) 9 (by decide)⟩

/-- C7, as stated, fails: `proof_check` reverses the arrays of the proof object in place, so a
second call on the same object decodes other integers. On the sample submission the first
call answers `SUCCESS`, the second one `FAIL_INCORRECT_PASSWORD`, with another server proof. -/
theorem proof_check_twice_same_object_differs :
    proof_check sample.lib sample.authenticator sample.proof =
        some ({ res := RESULT.SUCCESS, proof := 5 }, sample.authenticator,
          reverse_arrays sample.proof) ∧
      proof_check sample.lib sample.authenticator (reverse_arrays sample.proof) =
        some ({ res := RESULT.FAIL_INCORRECT_PASSWORD, proof := 3 * 256 ^ 19 },
          sample.authenticator, sample.proof) := by
  decide

/-- C7, amended: `proof_check` assigns no member of the authenticator, and its only effect on
the proof object is the in-place reversal of `A` and `M1`. Hence a second call that is given
the same wire bytes returns the same `LoginResult`, while a second call on the same object
works on the reversed arrays and puts the original bytes back, so that a call after it sees
the first submission again. -/
theorem proof_check_repeatable_on_same_bytes (lib : srp6.Library) (a a1 : Authenticator)
    (proof p1 : ClientLoginProof) (r : LoginResult)
    (h : proof_check lib a proof = some (r, a1, p1)) :
    a1 = a ∧ p1 = reverse_arrays proof ∧
      proof_check lib a1 proof = some (r, a1, p1) ∧
      ∃ r2, proof_check lib a1 p1 = some (r2, a1, proof) := by
  obtain ⟨user, auth, hu, ha⟩ := proof_check_some lib a a1 proof p1 r h
  have h1 := proof_check_eq lib a proof user auth hu ha
  rw [h1] at h
  simp only [Option.some.injEq, Prod.mk.injEq] at h
  obtain ⟨hr, hA, hp⟩ := h
  subst hA
  subst hp
  subst hr
  have h2 := proof_check_eq lib a (reverse_arrays proof) user auth hu ha
  rw [reverse_arrays_reverse_arrays] at h2
  exact ⟨rfl, rfl, h1, _, h2⟩

/-- The amended C7 at the sample submission. -/
theorem proof_check_repeatable_on_same_bytes_witness :
    ∃ r, proof_check sample.lib sample.authenticator sample.proof =
        some (r, sample.authenticator, reverse_arrays sample.proof) ∧
      ∃ r2, proof_check sample.lib sample.authenticator (reverse_arrays sample.proof) =
        some (r2, sample.authenticator, sample.proof) := by
  have h := proof_check_eq sample.lib sample.authenticator sample.proof sample.user
    sample.server
    (by decide) (by decide)
  obtain ⟨_, _, h3, r2, h4⟩ :=
    proof_check_repeatable_on_same_bytes sample.lib sample.authenticator sample.authenticator
      sample.proof _ _ h
  exact ⟨_, h3, r2, h4⟩

/-- C8: the integers `proof_check` works with are the little-endian values of the two wire
arrays. The arrays, reversed in place and decoded big-endian, give the sums of
`wire[i] * 256 ^ i`, and the returned result is the arithmetic of the member run on these
two sums. -/
theorem proof_check_decodes_little_endian (lib : srp6.Library) (a : Authenticator)
    (proof : ClientLoginProof) (user : User) (auth : srp6.Server)
    (huser : a.user_ = some user) (hauth : a.auth_ = some auth) :
    Botan.BigInt.decode (reverse_arrays proof).A = little_endian_value proof.A ∧
      Botan.BigInt.decode (reverse_arrays proof).M1 = little_endian_value proof.M1 ∧
      proof_check lib a proof =
        some (proof_check_result lib user auth a.gen_ (user.username.map toupper)
          (little_endian_value proof.A) (little_endian_value proof.M1), a,
          reverse_arrays proof) :=
  ⟨decode_reverse proof.A, decode_reverse proof.M1,
    proof_check_eq lib a proof user auth huser hauth⟩

/-- C8 at the sample submission, whose arrays read 2 and 3. -/
theorem proof_check_decodes_little_endian_witness :
    Botan.BigInt.decode (reverse_arrays sample.proof).A = 2 ∧
      Botan.BigInt.decode (reverse_arrays sample.proof).M1 = 3 := by
  obtain ⟨hA, hM, _⟩ :=
    proof_check_decodes_little_endian sample.lib sample.authenticator sample.proof sample.user
      sample.server
      (by decide) (by decide)
  exact ⟨hA.trans (by decide), hM.trans (by decide)⟩

/-- C9: whatever the outcome, the result of `proof_check` carries `generate_proof` of the
session key and the submitted client proof; this value is the same for every setting of the
account's banned and suspended flags, hence for every result code. -/
theorem proof_check_server_proof (lib : srp6.Library) (a : Authenticator)
    (proof : ClientLoginProof) (user : User) (auth : srp6.Server)
    (huser : a.user_ = some user) (hauth : a.auth_ = some auth) :
    ∃ r, proof_check lib a proof = some (r, a, reverse_arrays proof) ∧
      r.proof = server_proof lib auth proof ∧
      ∀ banned suspended : Bool, ∃ r2,
        proof_check lib
            { a with user_ := some { user with banned := banned, suspended := suspended } }
            proof =
          some (r2,
            { a with user_ := some { user with banned := banned, suspended := suspended } },
            reverse_arrays proof) ∧
        r2.proof = r.proof := by
  refine ⟨_, proof_check_eq lib a proof user auth huser hauth, ?_, ?_⟩
  · simp [proof_check_result, server_proof]
  · intro banned suspended
    refine ⟨_, proof_check_eq lib _ proof _ auth rfl hauth, ?_⟩
    simp [proof_check_result]

/-- C9 at the sample submission: the server proof is 3 plus the key byte 2. -/
theorem proof_check_server_proof_witness :
    ∃ r, proof_check sample.lib sample.authenticator sample.proof =
        some (r, sample.authenticator, reverse_arrays sample.proof) ∧
      r.proof = 5 := by
  obtain ⟨r, h, hp, _⟩ :=
    proof_check_server_proof sample.lib sample.authenticator sample.proof sample.user
      sample.server
      (by decide) (by decide)
  exact ⟨r, h, hp.trans (by decide)⟩

/-- C10, as stated, fails: after `proof_check` has returned, the sample authenticator still
holds the SRP6 server object with its private ephemeral, and a further call that submits
the same bytes is verified against that object and succeeds again. -/
theorem proof_check_keeps_session :
    (proof_check sample.lib sample.authenticator sample.proof).map (fun out => out.2.1.auth_) =
        some (some sample.server) ∧
      (proof_check sample.lib sample.authenticator sample.proof).bind
          (fun out => (proof_check sample.lib out.2.1 sample.proof).map (fun again => again.1)) =
        some { res := RESULT.SUCCESS, proof := 5 } := by
  decide

/-- C10, amended: `proof_check` never resets `auth_`. Whenever it returns, on success and on
every failure alike, the authenticator holds the very SRP6 server object (and user record)
it held before the call, and a later call succeeds in using it again. -/
theorem proof_check_leaves_session (lib : srp6.Library) (a a1 : Authenticator)
    (proof p1 : ClientLoginProof) (r : LoginResult)
    (h : proof_check lib a proof = some (r, a1, p1)) :
    a1.auth_ = a.auth_ ∧ a1.user_ = a.user_ ∧ a1.auth_.isSome = true ∧
      ∀ later : ClientLoginProof, (proof_check lib a1 later).isSome = true := by
  obtain ⟨user, auth, hu, ha⟩ := proof_check_some lib a a1 proof p1 r h
  have h1 := proof_check_eq lib a proof user auth hu ha
  rw [h1] at h
  simp only [Option.some.injEq, Prod.mk.injEq] at h
  obtain ⟨_, hA, _⟩ := h
  subst hA
  refine ⟨rfl, rfl, by simp [ha], ?_⟩
  intro later
  rw [proof_check_eq lib a later user auth hu ha]
  rfl

/-- The amended C10 at the sample submission. -/
theorem proof_check_leaves_session_witness :
    ∃ r, proof_check sample.lib sample.authenticator sample.proof =
        some (r, sample.authenticator, reverse_arrays sample.proof) ∧
      sample.authenticator.auth_.isSome = true := by
  have h := proof_check_eq sample.lib sample.authenticator sample.proof sample.user
    sample.server
    (by decide) (by decide)
  exact ⟨_, h,
    (proof_check_leaves_session sample.lib sample.authenticator sample.authenticator
      sample.proof _ _ h).2.2.1⟩

end Authenticator

/-! ## The dispatcher: handlers as equations, and what one event can change -/

namespace ClientHandler

open protocol

theorem handle_ping_eq (codec : Codec) (h : ClientHandler) (buffer : Bytes) :
    handle_ping codec h buffer =
      match codec.ping buffer with
      | none => { h with calls := h.calls ++ [Call.close_session] }
      | some packet =>
        { h with calls := h.calls ++ [Call.latency packet.latency,
            Call.send ServerOpcodes.SMSG_PONG (ServerPacket.SMSG_PONG packet.sequence_id)] } := by
  cases hp : codec.ping buffer <;> simp [handle_ping, packet_deserialise, call, hp]

theorem handle_authentication_eq (codec : Codec) (h : ClientHandler) (buffer : Bytes) :
    handle_authentication codec h buffer =
      if h.header_.opcode ≠ ClientOpcodes.CMSG_AUTH_SESSION then
        { h with state_ := ClientStates.AUTHENTICATING_REMOTE_WAIT
                 calls := h.calls ++ [Call.close_session] }
      else
        match codec.auth_session buffer with
        | none =>
          { h with state_ := ClientStates.AUTHENTICATING_REMOTE_WAIT
                   calls := h.calls ++ [Call.close_session] }
        | some packet =>
          { h with state_ := ClientStates.AUTHENTICATING_REMOTE_WAIT
                   calls := h.calls ++ [Call.locate_session packet.username packet] } := by
  by_cases ho : h.header_.opcode = ClientOpcodes.CMSG_AUTH_SESSION <;>
    cases hp : codec.auth_session buffer <;>
    simp [handle_authentication, packet_deserialise, fetch_session_key, call, hp, ho]

theorem handle_char_create_eq (codec : Codec) (h : ClientHandler) (buffer : Bytes) :
    handle_char_create codec h buffer =
      match codec.char_create buffer with
      | none => { h with calls := h.calls ++ [Call.close_session] }
      | some packet =>
        { h with calls := h.calls ++ [Call.create_character h.account_name_ packet.character] } := by
  cases hp : codec.char_create buffer <;> simp [handle_char_create, packet_deserialise, call, hp]

theorem handle_char_delete_eq (codec : Codec) (h : ClientHandler) (buffer : Bytes) :
    handle_char_delete codec h buffer =
      match codec.char_delete buffer with
      | none => { h with calls := h.calls ++ [Call.close_session] }
      | some packet =>
        { h with calls := h.calls ++ [Call.delete_character h.account_name_ packet.id] } := by
  cases hp : codec.char_delete buffer <;> simp [handle_char_delete, packet_deserialise, call, hp]

theorem handle_login_eq (codec : Codec) (h : ClientHandler) (buffer : Bytes) :
    handle_login codec h buffer =
      match codec.player_login buffer with
      | none => { h with calls := h.calls ++ [Call.close_session] }
      | some _ => h := by
  cases hp : codec.player_login buffer <;> simp [handle_login, packet_deserialise, call, hp]


theorem handle_packet_frame (codec : Codec) (h : ClientHandler) (header : ClientHeader)
    (buffer : Bytes) :
    ((handle_packet codec h header buffer).state_ = h.state_ ∧
        lookups (handle_packet codec h header buffer) = lookups h ∨
      h.state_ = ClientStates.AUTHENTICATING ∧
        (handle_packet codec h header buffer).state_ = ClientStates.AUTHENTICATING_REMOTE_WAIT ∧
        lookups (handle_packet codec h header buffer) ≤ lookups h + 1) ∧
      (handle_packet codec h header buffer).calls.countP Call.is_enqueue =
        h.calls.countP Call.is_enqueue ∧
      (handle_packet codec h header buffer).calls.countP Call.is_dequeue =
        h.calls.countP Call.is_dequeue := by
  obtain ⟨size, opcode⟩ := header
  cases hs : h.state_ <;> cases opcode <;>
    simp only [handle_packet, handle_ping_eq, handle_authentication_eq, handle_character_list,
      handle_in_world, handle_char_enum, handle_char_create_eq, handle_char_delete_eq,
      handle_login_eq, call, lookups, hs] <;>
    (try split) <;> (try split) <;>
    simp_all [Call.is_locate_session, Call.is_enqueue, Call.is_dequeue, List.countP_append]

theorem process_frame (codec : Codec) (sha : Bytes → Bytes) (h : ClientHandler) (e : Event) :
    ((process codec sha h e).state_ = h.state_ ∧
        lookups (process codec sha h e) = lookups h ∨
      h.state_ = ClientStates.AUTHENTICATING ∧
        (process codec sha h e).state_ = ClientStates.AUTHENTICATING_REMOTE_WAIT ∧
        lookups (process codec sha h e) ≤ lookups h + 1 ∨
      (process codec sha h e).state_ = ClientStates.CHARACTER_LIST ∧
        lookups (process codec sha h e) = lookups h) ∧
      (process codec sha h e).calls.countP Call.is_enqueue = h.calls.countP Call.is_enqueue ∧
      (process codec sha h e).calls.countP Call.is_dequeue = h.calls.countP Call.is_dequeue := by
  cases e with
  | packet header buffer =>
    obtain ⟨hstate, henq, hdeq⟩ := handle_packet_frame codec h header buffer
    refine ⟨?_, henq, hdeq⟩
    rcases hstate with h1 | h2
    · exact Or.inl h1
    · exact Or.inr (Or.inl h2)
  | locate_session_reply packet remote_res key =>
    simp only [process, locate_session_reply, prove_session, send_auth_fail, auth_success,
      send_auth_success, call, lookups]
    split <;> (try split) <;>
      simp [Call.is_locate_session, Call.is_enqueue, Call.is_dequeue, List.countP_append]
  | retrieve_characters_reply status characters =>
    simp only [process, retrieve_characters_reply, send_character_list,
      send_character_list_fail, call, lookups]
    split <;>
      simp [Call.is_locate_session, Call.is_enqueue, Call.is_dequeue, List.countP_append]
  | create_character_reply status =>
    simp [process, create_character_reply, send_character_create, call, lookups,
      Call.is_locate_session, Call.is_enqueue, Call.is_dequeue, List.countP_append]
  | delete_character_reply status =>
    simp only [process, delete_character_reply, send_character_delete, call, lookups]
    split <;>
      simp [Call.is_locate_session, Call.is_enqueue, Call.is_dequeue, List.countP_append]

theorem run_nil (codec : Codec) (sha : Bytes → Bytes) (h : ClientHandler) :
    run codec sha h [] = h := rfl

theorem run_cons (codec : Codec) (sha : Bytes → Bytes) (h : ClientHandler) (e : Event)
    (events : List Event) :
    run codec sha h (e :: events) = run codec sha (process codec sha h e) events := rfl

theorem run_lookups (codec : Codec) (sha : Bytes → Bytes) (events : List Event)
    (h : ClientHandler) (n : Nat)
    (hinv : h.state_ = ClientStates.AUTHENTICATING ∧ lookups h = n ∨
      h.state_ ≠ ClientStates.AUTHENTICATING ∧ lookups h ≤ n + 1) :
    lookups (run codec sha h events) ≤ n + 1 := by
  induction events generalizing h with
  | nil =>
    rw [run_nil]
    rcases hinv with ⟨_, h2⟩ | ⟨_, h2⟩ <;> omega
  | cons e events ih =>
    rw [run_cons]
    apply ih
    obtain ⟨hstep, _, _⟩ := process_frame codec sha h e
    rcases hinv with ⟨hs, hl⟩ | ⟨hs, hl⟩
    · rcases hstep with ⟨s1, l1⟩ | ⟨_, s1, l1⟩ | ⟨s1, l1⟩
      · left; exact ⟨s1.trans hs, l1.trans hl⟩
      · right; rw [s1]; exact ⟨by decide, by omega⟩
      · right; rw [s1]; exact ⟨by decide, by omega⟩
    · rcases hstep with ⟨s1, l1⟩ | ⟨s0, _, _⟩ | ⟨s1, l1⟩
      · right; rw [s1]; exact ⟨hs, by omega⟩
      · exact absurd s0 hs
      · right; rw [s1]; exact ⟨by decide, by omega⟩

theorem run_states (codec : Codec) (sha : Bytes → Bytes) (events : List Event)
    (h : ClientHandler)
    (hinv : h.state_ = ClientStates.AUTHENTICATING ∨
      h.state_ = ClientStates.AUTHENTICATING_REMOTE_WAIT ∨
      h.state_ = ClientStates.CHARACTER_LIST) :
    ((run codec sha h events).state_ = ClientStates.AUTHENTICATING ∨
      (run codec sha h events).state_ = ClientStates.AUTHENTICATING_REMOTE_WAIT ∨
      (run codec sha h events).state_ = ClientStates.CHARACTER_LIST) ∧
    (run codec sha h events).calls.countP Call.is_enqueue = h.calls.countP Call.is_enqueue ∧
    (run codec sha h events).calls.countP Call.is_dequeue = h.calls.countP Call.is_dequeue := by
  induction events generalizing h with
  | nil => exact ⟨hinv, rfl, rfl⟩
  | cons e events ih =>
    rw [run_cons]
    obtain ⟨hstep, henq, hdeq⟩ := process_frame codec sha h e
    have hnext : (process codec sha h e).state_ = ClientStates.AUTHENTICATING ∨
        (process codec sha h e).state_ = ClientStates.AUTHENTICATING_REMOTE_WAIT ∨
        (process codec sha h e).state_ = ClientStates.CHARACTER_LIST := by
      rcases hstep with ⟨s1, _⟩ | ⟨_, s1, _⟩ | ⟨s1, _⟩
      · rw [s1]; exact hinv
      · exact Or.inr (Or.inl s1)
      · exact Or.inr (Or.inr s1)
    obtain ⟨r1, r2, r3⟩ := ih (process codec sha h e) hnext
    exact ⟨r1, r2.trans henq, r3.trans hdeq⟩

theorem sample_character_list_reached :
    locate_session_reply sample.sha sample.waiting { username := [14], seed := 14, digest := [14] }
      messaging.account.Status.OK 5 = sample.character_list := by
  have hk : Botan.BigInt.encode 5 = [5] := by
    simp [Botan.BigInt.encode]
  simp [locate_session_reply, prove_session, prove_session_hasher, Botan.SHA_160.final,
    Botan.SHA_160.update, hk, sample.sha, uint32_bytes, auth_success, send_auth_success, call,
    sample.character_list, auth_response]

end ClientHandler

theorem any_newer_iff (gt : GameVersion → GameVersion → Bool) (version : GameVersion)
    (versions : List GameVersion) :
    Authenticator.any_newer gt version versions = true ↔
      ∃ v ∈ versions, gt v version = true := by
  induction versions with
  | nil => simp [Authenticator.any_newer]
  | cons v rest ih =>
    by_cases hv : gt v version = true <;> simp [Authenticator.any_newer, hv, ih]

/-! ## The dispatcher and the session lifecycle -/

namespace ClientHandler

open protocol

/-- C11: whatever packets and service replies one handler processes after `start`, its log
gains at most one Directory lookup: the number of `locate_session` calls is at most one more
than before `start` (none, for a new handler). -/
theorem at_most_one_directory_lookup (codec : Codec) (sha : Bytes → Bytes) (h : ClientHandler)
    (events : List Event) :
    lookups (run codec sha (start h) events) ≤ lookups h + 1 := by
  apply run_lookups
  left
  simp [start, send_auth_challenge, call, lookups, List.countP_append, Call.is_locate_session]

/-- C11 at a concrete run: two session-auth packets and a Directory reply after `start`; the
first packet issues the one lookup. -/
theorem at_most_one_directory_lookup_witness :
    lookups (run sample.codec sample.sha (start sample.fresh)
        [Event.packet { size := 1, opcode := ClientOpcodes.CMSG_AUTH_SESSION } [14],
         Event.packet { size := 1, opcode := ClientOpcodes.CMSG_AUTH_SESSION } [14],
         Event.locate_session_reply sample.auth_packet
           messaging.account.Status.SESSION_NOT_FOUND 0]) ≤ 1 :=
  at_most_one_directory_lookup sample.codec sample.sha sample.fresh _

/-- C12: a session-auth packet that arrives in state `AUTHENTICATING_REMOTE_WAIT` is ignored.
The handler only records the header: its log is unchanged, so no lookup is issued and
nothing is sent, and `state_` stays `AUTHENTICATING_REMOTE_WAIT`. -/
theorem handle_packet_remote_wait_ignores_auth (codec : Codec) (h : ClientHandler)
    (header : ClientHeader) (buffer : Bytes)
    (hstate : h.state_ = ClientStates.AUTHENTICATING_REMOTE_WAIT)
    (hop : header.opcode = ClientOpcodes.CMSG_AUTH_SESSION) :
    handle_packet codec h header buffer = { h with header_ := header } ∧
      (handle_packet codec h header buffer).calls = h.calls ∧
      (handle_packet codec h header buffer).state_ = ClientStates.AUTHENTICATING_REMOTE_WAIT := by
  obtain ⟨size, opcode⟩ := header
  simp only at hop
  subst hop
  simp [handle_packet, hstate]

/-- C12 at a concrete packet: a second session-auth packet reaching the waiting handler. -/
theorem handle_packet_remote_wait_ignores_auth_witness :
    sample.waiting.state_ = ClientStates.AUTHENTICATING_REMOTE_WAIT ∧
      (handle_packet sample.codec sample.waiting
        { size := 1, opcode := ClientOpcodes.CMSG_AUTH_SESSION } [14]).calls =
          sample.waiting.calls :=
  ⟨by decide,
    (handle_packet_remote_wait_ignores_auth sample.codec sample.waiting
      { size := 1, opcode := ClientOpcodes.CMSG_AUTH_SESSION } [14] (by decide) rfl).2.1⟩

/-- C13: the destructor logs exactly one `dequeue` and nothing else in state `IN_QUEUE`,
exactly one `decrement` and nothing else in the states `CHARACTER_LIST` and `IN_WORLD`, and
nothing at all in the states `AUTHENTICATING` and `AUTHENTICATING_REMOTE_WAIT`. -/
theorem destroy_queue_calls (h : ClientHandler) :
    destroy { h with state_ := ClientStates.IN_QUEUE } =
        { h with state_ := ClientStates.IN_QUEUE, calls := h.calls ++ [Call.dequeue] } ∧
      destroy { h with state_ := ClientStates.CHARACTER_LIST } =
        { h with state_ := ClientStates.CHARACTER_LIST, calls := h.calls ++ [Call.decrement] } ∧
      destroy { h with state_ := ClientStates.IN_WORLD } =
        { h with state_ := ClientStates.IN_WORLD, calls := h.calls ++ [Call.decrement] } ∧
      destroy { h with state_ := ClientStates.AUTHENTICATING } =
        { h with state_ := ClientStates.AUTHENTICATING } ∧
      destroy { h with state_ := ClientStates.AUTHENTICATING_REMOTE_WAIT } =
        { h with state_ := ClientStates.AUTHENTICATING_REMOTE_WAIT } := by
  simp [destroy, call]

/-- C16: in every state a keep-alive only has its header recorded (no reply, no other call,
same state), and a ping the codec parses logs the latency and then exactly one pong that
carries the ping's sequence id, again without touching the state. -/
theorem handle_packet_universal_opcodes (codec : Codec) (h : ClientHandler) (size : Nat)
    (buffer : Bytes) :
    handle_packet codec h { size := size, opcode := ClientOpcodes.CMSG_KEEP_ALIVE } buffer =
        { h with header_ := { size := size, opcode := ClientOpcodes.CMSG_KEEP_ALIVE } } ∧
      ∀ packet : CMSG_PING, codec.ping buffer = some packet →
        handle_packet codec h { size := size, opcode := ClientOpcodes.CMSG_PING } buffer =
            { h with
              header_ := { size := size, opcode := ClientOpcodes.CMSG_PING }
              calls := h.calls ++ [Call.latency packet.latency,
                Call.send ServerOpcodes.SMSG_PONG (ServerPacket.SMSG_PONG packet.sequence_id)] } ∧
          sent_packets ((handle_packet codec h
              { size := size, opcode := ClientOpcodes.CMSG_PING } buffer).calls.drop
                h.calls.length) = [ServerPacket.SMSG_PONG packet.sequence_id] := by
  refine ⟨by simp [handle_packet], ?_⟩
  intro packet hp
  simp [handle_packet, handle_ping_eq, hp, sent_packets]

/-- C16 at a concrete ping: sequence id 42 sent to the handler in the character list. -/
theorem handle_packet_universal_opcodes_witness :
    sample.codec.ping [42] = some { sequence_id := 42, latency := 42 } ∧
      sent_packets ((handle_packet sample.codec sample.character_list
          { size := 1, opcode := ClientOpcodes.CMSG_PING } [42]).calls.drop
            sample.character_list.calls.length) = [ServerPacket.SMSG_PONG 42] :=
  ⟨rfl,
    ((handle_packet_universal_opcodes sample.codec sample.character_list 1 [42]).2
      { sequence_id := 42, latency := 42 } rfl).2⟩

/-- C18: outside authentication an opcode without a handler is ignored. In state
`CHARACTER_LIST` every opcode other than ping, keep-alive and the four character requests,
and in the states `IN_WORLD`, `IN_QUEUE` and `AUTHENTICATING_REMOTE_WAIT` every opcode other
than ping and keep-alive, only has its header recorded: the log is unchanged (nothing sent,
no close, no service call) and so is `state_`. -/
theorem handle_packet_lenient (codec : Codec) (h : ClientHandler) (header : ClientHeader)
    (buffer : Bytes)
    (hping : header.opcode ≠ ClientOpcodes.CMSG_PING)
    (hkeep : header.opcode ≠ ClientOpcodes.CMSG_KEEP_ALIVE)
    (hcase : (h.state_ = ClientStates.CHARACTER_LIST ∧
        header.opcode ≠ ClientOpcodes.CMSG_CHAR_ENUM ∧
        header.opcode ≠ ClientOpcodes.CMSG_CHAR_CREATE ∧
        header.opcode ≠ ClientOpcodes.CMSG_CHAR_DELETE ∧
        header.opcode ≠ ClientOpcodes.CMSG_PLAYER_LOGIN) ∨
      h.state_ = ClientStates.IN_WORLD ∨ h.state_ = ClientStates.IN_QUEUE ∨
      h.state_ = ClientStates.AUTHENTICATING_REMOTE_WAIT) :
    handle_packet codec h header buffer = { h with header_ := header } ∧
      (handle_packet codec h header buffer).calls = h.calls ∧
      (handle_packet codec h header buffer).state_ = h.state_ := by
  obtain ⟨size, opcode⟩ := header
  have main : handle_packet codec h { size := size, opcode := opcode } buffer =
      { h with header_ := { size := size, opcode := opcode } } := by
    rcases hcase with ⟨hs, h1, h2, h3, h4⟩ | hs | hs | hs <;>
      cases opcode <;>
      simp_all [handle_packet, handle_character_list, handle_in_world]
  rw [main]
  exact ⟨rfl, rfl, rfl⟩

/-- C18 at a concrete packet: a session-auth packet sent to the handler in the character
list. -/
theorem handle_packet_lenient_witness :
    handle_packet sample.codec sample.character_list
        { size := 1, opcode := ClientOpcodes.CMSG_AUTH_SESSION } [14] =
      { sample.character_list with
        header_ := { size := 1, opcode := ClientOpcodes.CMSG_AUTH_SESSION } } :=
  (handle_packet_lenient sample.codec sample.character_list
    { size := 1, opcode := ClientOpcodes.CMSG_AUTH_SESSION } [14] (by decide) (by decide)
    (Or.inl (by decide))).1

/-- C19: the queue branch is dead. Whatever packets and service replies the handler processes
after `start`, its state is `AUTHENTICATING`, `AUTHENTICATING_REMOTE_WAIT` or
`CHARACTER_LIST`, in particular never `IN_QUEUE`; no `enqueue` is added to its log; and
destroying it adds no `dequeue`. -/
theorem queue_branch_is_dead (codec : Codec) (sha : Bytes → Bytes) (h : ClientHandler)
    (events : List Event) :
    ((run codec sha (start h) events).state_ = ClientStates.AUTHENTICATING ∨
        (run codec sha (start h) events).state_ = ClientStates.AUTHENTICATING_REMOTE_WAIT ∨
        (run codec sha (start h) events).state_ = ClientStates.CHARACTER_LIST) ∧
      (run codec sha (start h) events).state_ ≠ ClientStates.IN_QUEUE ∧
      (run codec sha (start h) events).calls.countP Call.is_enqueue =
        h.calls.countP Call.is_enqueue ∧
      (destroy (run codec sha (start h) events)).calls.countP Call.is_dequeue =
        h.calls.countP Call.is_dequeue := by
  have hstart : (start h).state_ = ClientStates.AUTHENTICATING := by
    simp [start, send_auth_challenge, call]
  have hcalls : (start h).calls = h.calls ++
      [Call.send ServerOpcodes.SMSG_AUTH_CHALLENGE (ServerPacket.SMSG_AUTH_CHALLENGE 600)] := by
    simp [start, send_auth_challenge, call]
  obtain ⟨hs, henq, hdeq⟩ := run_states codec sha events (start h) (Or.inl hstart)
  rw [hcalls] at henq hdeq
  simp only [List.countP_append, List.countP_cons, List.countP_nil, Call.is_enqueue,
    Call.is_dequeue] at henq hdeq
  refine ⟨hs, ?_, by simpa using henq, ?_⟩
  · rcases hs with e | e | e <;> rw [e] <;> decide
  · rcases hs with e | e | e <;>
      simp [destroy, e, call, List.countP_append, Call.is_dequeue] <;> simpa using hdeq

/-- The handler of char-enum, unlike the other handlers of the character list, does not
deserialise: on an empty buffer, which the sample codec cannot parse as any packet, a
char-enum request in state `CHARACTER_LIST` issues the character-service call. -/
theorem char_enum_is_not_parsed :
    sample.character_list.state_ = ClientStates.CHARACTER_LIST ∧
      (sample.codec.ping [] = none ∧ sample.codec.auth_session [] = none ∧
        sample.codec.char_create [] = none ∧ sample.codec.char_delete [] = none ∧
        sample.codec.player_login [] = none) ∧
      handle_packet sample.codec sample.character_list
          { size := 0, opcode := ClientOpcodes.CMSG_CHAR_ENUM } [] =
        { sample.character_list with
          header_ := { size := 0, opcode := ClientOpcodes.CMSG_CHAR_ENUM }
          calls := sample.character_list.calls ++ [Call.retrieve_characters [14]] } := by
  decide

/-- C15, as stated, fails, at a session-auth packet the codec cannot parse. When it reaches
the handler in state `AUTHENTICATING_REMOTE_WAIT` it is ignored: the log is unchanged, so
the connection is not closed. When it reaches the handler in state `AUTHENTICATING` the
connection is closed, but closing is not the only effect: `state_` is left at
`AUTHENTICATING_REMOTE_WAIT`. -/
theorem unparsable_packet_is_not_always_closed :
    parse_fails sample.codec ClientOpcodes.CMSG_AUTH_SESSION [] = true ∧
      sample.waiting.state_ = ClientStates.AUTHENTICATING_REMOTE_WAIT ∧
      (handle_packet sample.codec sample.waiting
        { size := 0, opcode := ClientOpcodes.CMSG_AUTH_SESSION } []).calls =
          sample.waiting.calls ∧
      sample.started.state_ = ClientStates.AUTHENTICATING ∧
      handle_packet sample.codec sample.started
          { size := 0, opcode := ClientOpcodes.CMSG_AUTH_SESSION } [] =
        { sample.started with
          header_ := { size := 0, opcode := ClientOpcodes.CMSG_AUTH_SESSION }
          state_ := ClientStates.AUTHENTICATING_REMOTE_WAIT
          calls := sample.started.calls ++ [Call.close_session] } := by
  decide

/-- C15, amended: for the five opcodes whose handler deserialises (ping, session-auth,
char-create, char-delete, player-login) and every state, a packet the codec fails to parse
makes `handle_packet` log nothing or exactly one `close_session`, hence no reply, no
Directory lookup and no character-service call. It is exactly one `close_session` when the
dispatcher hands the opcode to its handler and whenever the state is `AUTHENTICATING`; in
every other case the packet only has its header recorded. The state is kept, except that a
packet other than a ping handled while `AUTHENTICATING` leaves it at
`AUTHENTICATING_REMOTE_WAIT`. -/
theorem handle_packet_parse_failure (codec : Codec) (h : ClientHandler)
    (header : ClientHeader) (buffer : Bytes)
    (hfail : parse_fails codec header.opcode buffer = true) :
    ((handle_packet codec h header buffer).calls = h.calls ∨
        (handle_packet codec h header buffer).calls = h.calls ++ [Call.close_session]) ∧
      (routed_to_handler h.state_ header.opcode = true →
        (handle_packet codec h header buffer).calls = h.calls ++ [Call.close_session]) ∧
      ((handle_packet codec h header buffer).state_ = h.state_ ∨
        h.state_ = ClientStates.AUTHENTICATING ∧
          (handle_packet codec h header buffer).state_ =
            ClientStates.AUTHENTICATING_REMOTE_WAIT) ∧
      (h.state_ = ClientStates.AUTHENTICATING →
        (handle_packet codec h header buffer).calls = h.calls ++ [Call.close_session]) ∧
      (routed_to_handler h.state_ header.opcode = false →
        h.state_ ≠ ClientStates.AUTHENTICATING →
        handle_packet codec h header buffer = { h with header_ := header }) ∧
      (h.state_ = ClientStates.AUTHENTICATING →
        header.opcode ≠ ClientOpcodes.CMSG_PING →
        (handle_packet codec h header buffer).state_ =
          ClientStates.AUTHENTICATING_REMOTE_WAIT) ∧
      (h.state_ ≠ ClientStates.AUTHENTICATING ∨ header.opcode = ClientOpcodes.CMSG_PING →
        (handle_packet codec h header buffer).state_ = h.state_) := by
  obtain ⟨size, opcode⟩ := header
  cases hs : h.state_ <;> cases opcode <;>
    simp_all [parse_fails, routed_to_handler, handle_packet, handle_ping_eq,
      handle_authentication_eq, handle_character_list, handle_in_world, handle_char_enum,
      handle_char_create_eq, handle_char_delete_eq, handle_login_eq, call]

/-- The amended C15 at a concrete packet: an unparsable char-create in the character list. -/
theorem handle_packet_parse_failure_witness :
    parse_fails sample.codec ClientOpcodes.CMSG_CHAR_CREATE [] = true ∧
      (handle_packet sample.codec sample.character_list
          { size := 0, opcode := ClientOpcodes.CMSG_CHAR_CREATE } []).calls =
        sample.character_list.calls ++ [Call.close_session] :=
  ⟨by decide,
    (handle_packet_parse_failure sample.codec sample.character_list
      { size := 0, opcode := ClientOpcodes.CMSG_CHAR_CREATE } [] (by decide)).2.1 (by decide)⟩

/-- C17: the packets `prove_session` sends are the same for any two keys on which the digest
comparison comes out the same, and each of them is an auth-response holding one of two
fixed result codes, so none carries the key. -/
theorem prove_session_sends_no_key (sha : Bytes → Bytes) (h : ClientHandler)
    (packet : CMSG_AUTH_SESSION) (key1 key2 : Nat)
    (hsame : (prove_session_hasher h key1 packet).final sha = packet.digest ↔
      (prove_session_hasher h key2 packet).final sha = packet.digest) :
    sent_packets ((prove_session sha h key1 packet).calls.drop h.calls.length) =
        sent_packets ((prove_session sha h key2 packet).calls.drop h.calls.length) ∧
      ∀ key ∈ [key1, key2],
        ∀ sent ∈ sent_packets ((prove_session sha h key packet).calls.drop h.calls.length),
          sent = ServerPacket.SMSG_AUTH_RESPONSE ResultCode.AUTH_OK ∨
            sent = ServerPacket.SMSG_AUTH_RESPONSE ResultCode.AUTH_BAD_SERVER_PROOF := by
  have shape : ∀ key, sent_packets ((prove_session sha h key packet).calls.drop h.calls.length) =
      [ServerPacket.SMSG_AUTH_RESPONSE
        (if (prove_session_hasher h key packet).final sha = packet.digest then ResultCode.AUTH_OK
          else ResultCode.AUTH_BAD_SERVER_PROOF)] := by
    intro key
    by_cases hd : (prove_session_hasher h key packet).final sha = packet.digest <;>
      simp [prove_session, hd, send_auth_fail, auth_success, send_auth_success, call,
        sent_packets]
  constructor
  · rw [shape key1, shape key2]
    by_cases hd : (prove_session_hasher h key1 packet).final sha = packet.digest
    · rw [if_pos hd, if_pos (hsame.mp hd)]
    · rw [if_neg hd, if_neg (fun h2 => hd (hsame.mpr h2))]
  · intro key _ sent hsent
    rw [shape key] at hsent
    simp only [List.mem_singleton] at hsent
    rw [hsent]
    split
    · exact Or.inl rfl
    · exact Or.inr rfl

/-- C17 at two concrete keys, 5 and 6, both of which the sample packet's digest rejects. -/
theorem prove_session_sends_no_key_witness :
    sent_packets ((prove_session sample.sha sample.waiting 5 sample.auth_packet).calls.drop
        sample.waiting.calls.length) =
      sent_packets ((prove_session sample.sha sample.waiting 6 sample.auth_packet).calls.drop
        sample.waiting.calls.length) :=
  (prove_session_sends_no_key sample.sha sample.waiting sample.auth_packet 5 6
    (by simp [Botan.SHA_160.final, sample.sha, sample.auth_packet])).1

end ClientHandler

/-! ## Account lookup and version check -/

namespace Authenticator

/-- C14, as stated, fails: the handler catches `std::exception` only. When the lookup throws
an object of another type, `check_account` returns no status, in particular not `DAL_ERROR`,
and the object escapes to the caller. -/
theorem check_account_lets_other_objects_escape :
    sample.throwing_users sample.user.username = Except.error (Thrown.other 42) ∧
      check_account sample.throwing_users sample.make_server sample.blank sample.user.username =
        (Except.error (Thrown.other 42), sample.blank) :=
  ⟨rfl, rfl⟩

/-- C14, amended: `check_account` answers `NOT_FOUND` exactly when the store has no record for
the name, `DAL_ERROR` exactly when the lookup or the construction of the SRP6 server throws
a `std::exception`, and `OK` exactly when both succeed. Only in the `OK` case is a new server
object stored in `auth_`; otherwise `auth_` is what it was. No `std::exception` escapes; an
object of another type thrown by either call escapes, and then no status is returned. -/
theorem check_account_status (users : Bytes → Except Thrown (Option User))
    (make_server : srp6.Generator → Bytes → Except Thrown srp6.Server) (a : Authenticator)
    (username : Bytes) :
    ((check_account users make_server a username).1 = Except.ok ACCOUNT_STATUS.NOT_FOUND ↔
        users username = Except.ok none) ∧
      ((check_account users make_server a username).1 = Except.ok ACCOUNT_STATUS.DAL_ERROR ↔
        (∃ what, users username = Except.error (Thrown.std_exception what)) ∨
          ∃ u what, users username = Except.ok (some u) ∧
            make_server a.gen_ u.verifier = Except.error (Thrown.std_exception what)) ∧
      ((check_account users make_server a username).1 = Except.ok ACCOUNT_STATUS.OK ↔
        ∃ u server, users username = Except.ok (some u) ∧
          make_server a.gen_ u.verifier = Except.ok server ∧
          (check_account users make_server a username).2.auth_ = some server ∧
          (check_account users make_server a username).2.user_ = some u) ∧
      (∀ code, (check_account users make_server a username).1 =
          Except.error (Thrown.other code) ↔
        users username = Except.error (Thrown.other code) ∨
          ∃ u, users username = Except.ok (some u) ∧
            make_server a.gen_ u.verifier = Except.error (Thrown.other code)) ∧
      (∀ what, (check_account users make_server a username).1 ≠
        Except.error (Thrown.std_exception what)) ∧
      ((check_account users make_server a username).1 ≠ Except.ok ACCOUNT_STATUS.OK →
        (check_account users make_server a username).2.auth_ = a.auth_) := by
  unfold check_account
  rcases hu : users username with (_ | _) | (_ | u)
  · simp
  · simp
  · simp
  · rcases hm : make_server a.gen_ u.verifier with (_ | _) | server
    · simp [hm]
    · simp [hm]
    · simp [hm]

/-- The amended C14 at the sample store: the known user is found and a server object is
stored. -/
theorem check_account_status_witness :
    (check_account sample.users sample.make_server sample.blank sample.user.username).1 =
      Except.ok ACCOUNT_STATUS.OK :=
  (check_account_status sample.users sample.make_server sample.blank
    sample.user.username).2.2.1.mpr ⟨sample.user, sample.server, rfl, rfl, rfl, rfl⟩

/-- C20: `verify_client_version` answers `OK` exactly when the client version is in the list
of allowed versions; otherwise `TOO_OLD` exactly when some allowed version is greater than
the client's; otherwise `TOO_NEW`, which is in particular the answer for an empty list. -/
theorem verify_client_version_spec (gt : GameVersion → GameVersion → Bool) (a : Authenticator)
    (version : GameVersion) :
    (verify_client_version gt a version = PATCH_STATE.OK ↔ version ∈ a.versions_) ∧
      (verify_client_version gt a version = PATCH_STATE.TOO_OLD ↔
        version ∉ a.versions_ ∧ ∃ v ∈ a.versions_, gt v version = true) ∧
      (verify_client_version gt a version = PATCH_STATE.TOO_NEW ↔
        version ∉ a.versions_ ∧ ∀ v ∈ a.versions_, gt v version = false) ∧
      verify_client_version gt { a with versions_ := [] } version = PATCH_STATE.TOO_NEW := by
  have hnew := any_newer_iff gt version a.versions_
  unfold verify_client_version
  by_cases hmem : version ∈ a.versions_
  · simp [hmem, any_newer]
  · by_cases hany : any_newer gt version a.versions_ = true
    · have hex := hnew.mp hany
      simp only [hmem, hany, if_true, if_false]
      refine ⟨by simp, by simp [hex], ?_, by simp [any_newer]⟩
      obtain ⟨v, hv, hg⟩ := hex
      simp only [reduceCtorEq, false_iff, not_and, not_forall]
      intro _
      exact ⟨v, hv, by simp [hg]⟩
    · have hno : ¬ ∃ v ∈ a.versions_, gt v version = true := fun h => hany (hnew.mpr h)
      have hall : ∀ v ∈ a.versions_, gt v version = false := by
        intro v hv
        by_cases hg : gt v version = true
        · exact absurd ⟨v, hv, hg⟩ hno
        · simpa using hg
      simp only [hmem, hany, if_false]
      exact ⟨by simp, by simp [hno], by simpa using hall, by simp [any_newer]⟩

/-- C20 at a concrete client: build 5000 is not allowed and an allowed build is newer. -/
theorem verify_client_version_spec_witness :
    verify_client_version sample.newer { sample.blank with versions_ := sample.versions }
        { major := 1, minor := 11, patch := 0, build := 5000 } =
      PATCH_STATE.TOO_OLD :=
  (verify_client_version_spec sample.newer { sample.blank with versions_ := sample.versions }
    { major := 1, minor := 11, patch := 0, build := 5000 }).2.1.mpr
    ⟨by decide, { major := 1, minor := 12, patch := 1, build := 5875 }, by decide, by decide⟩

end Authenticator

/-! ## The definition parser -/

namespace dbc

namespace Parser

open rapidxml

theorem parse_field_key_nodes_flag (nodes : List xml_node) (key parsed : types.Key)
    (h : parse_field_key_nodes nodes key = Except.ok parsed) :
    parsed.ignore_type_mismatch = key.ignore_type_mismatch := by
  induction nodes generalizing key with
  | nil =>
    simp only [parse_field_key_nodes, Except.ok.injEq] at h
    rw [← h]
  | cons node rest ih =>
    simp only [parse_field_key_nodes] at h
    split at h
    · have h3 := ih _ h
      exact h3
    · split at h
      · have h3 := ih _ h
        exact h3
      · simp [throw_exception] at h

theorem parse_field_key_nodes_ok_iff (nodes : List xml_node) (key : types.Key) :
    (∃ parsed, parse_field_key_nodes nodes key = Except.ok parsed) ↔
      ∀ node ∈ nodes, node.name = "type" ∨ node.name = "parent" := by
  induction nodes generalizing key with
  | nil => simp [parse_field_key_nodes]
  | cons node rest ih =>
    simp only [parse_field_key_nodes, List.mem_cons, forall_eq_or_imp]
    by_cases h1 : node.name = "type"
    · simp [h1, ih]
    · by_cases h2 : node.name = "parent"
      · simp [h1, h2, ih]
      · simp [h1, h2, throw_exception]

/-- C23: `parse_field_key` leaves `ignore_type_mismatch` at its default when the attribute is
absent, sets it to true when the attribute reads exactly `true` or `1`, and throws for every
other attribute value, `false` and `0` included; a child that is neither `<type>` nor
`<parent>` makes it fail too. It succeeds exactly when the attribute is absent or valid and
all children are `<type>` or `<parent>`. -/
theorem parse_field_key_spec (property : xml_node) :
    (property.first_attribute "ignore-type-mismatch" = none →
        ∀ key, parse_field_key property = Except.ok key →
          key.ignore_type_mismatch = ({} : types.Key).ignore_type_mismatch) ∧
      (∀ attr, property.first_attribute "ignore-type-mismatch" = some attr →
        attr.value = "true" ∨ attr.value = "1" →
        ∀ key, parse_field_key property = Except.ok key → key.ignore_type_mismatch = true) ∧
      (∀ attr, property.first_attribute "ignore-type-mismatch" = some attr →
        attr.value ≠ "true" → attr.value ≠ "1" →
        parse_field_key property =
          throw_exception
            (attr.value ++ " is not a valid attribute value for ignore-type-mismatch")) ∧
      ((∃ node ∈ property.children, node.name ≠ "type" ∧ node.name ≠ "parent") →
        ∀ key, parse_field_key property ≠ Except.ok key) ∧
      ((∃ key, parse_field_key property = Except.ok key) ↔
        (property.first_attribute "ignore-type-mismatch" = none ∨
          ∃ attr, property.first_attribute "ignore-type-mismatch" = some attr ∧
            (attr.value = "true" ∨ attr.value = "1")) ∧
        ∀ node ∈ property.children, node.name = "type" ∨ node.name = "parent") := by
  have hiff : (∃ key, parse_field_key property = Except.ok key) ↔
      (property.first_attribute "ignore-type-mismatch" = none ∨
        ∃ attr, property.first_attribute "ignore-type-mismatch" = some attr ∧
          (attr.value = "true" ∨ attr.value = "1")) ∧
      ∀ node ∈ property.children, node.name = "type" ∨ node.name = "parent" := by
    unfold parse_field_key
    cases hattr : property.first_attribute "ignore-type-mismatch" with
    | none => simp [parse_field_key_nodes_ok_iff]
    | some attr =>
      by_cases hv : attr.value = "true" ∨ attr.value = "1"
      · simp [hv, parse_field_key_nodes_ok_iff]
      · simp [hv, throw_exception]
  refine ⟨?_, ?_, ?_, ?_, hiff⟩
  · intro hattr key hkey
    simp only [parse_field_key, hattr] at hkey
    exact parse_field_key_nodes_flag _ _ _ hkey
  · intro attr hattr hv key hkey
    simp only [parse_field_key, hattr, hv, if_true] at hkey
    exact parse_field_key_nodes_flag _ _ _ hkey
  · intro attr hattr h1 h2
    simp [parse_field_key, hattr, h1, h2]
  · rintro ⟨node, hmem, h1, h2⟩ key hkey
    rcases (hiff.mp ⟨key, hkey⟩).2 node hmem with h | h
    · exact h1 h
    · exact h2 h

/-- C23 at concrete elements: the attribute value `1` sets the flag, the value `false` is
rejected. -/
theorem parse_field_key_spec_witness :
    parse_field_key sample.key_node =
        Except.ok { type_ := "foreign", parent := "Map", ignore_type_mismatch := true } ∧
      parse_field_key sample.false_key_node =
        throw_exception "false is not a valid attribute value for ignore-type-mismatch" :=
  ⟨rfl,
    (parse_field_key_spec sample.false_key_node).2.2.1
      { name := "ignore-type-mismatch", value := "false" } rfl (by decide) (by decide)⟩

theorem parse_field_node_cases (field : types.Field) (check : UniqueCheck) (node : xml_node) :
    (node.name = "name" ∧
        parse_field_node field check node =
          if check.name then throw_exception ("Multiple definitions of: " ++ node.name)
          else Except.ok ({ field with name := node.value }, { check with name := true })) ∨
      (node.name ≠ "name" ∧ node.name = "type" ∧
        parse_field_node field check node =
          if check.type_ then throw_exception ("Multiple definitions of: " ++ node.name)
          else Except.ok ({ field with underlying_type := node.value },
            { check with type_ := true })) ∨
      (node.name ≠ "name" ∧ node.name ≠ "type" ∧ node.name = "key" ∧
        parse_field_node field check node =
          match parse_field_key node with
          | Except.error e => Except.error e
          | Except.ok key => Except.ok ({ field with keys := field.keys ++ [key] }, check)) ∨
      (node.name ≠ "name" ∧ node.name ≠ "type" ∧ node.name ≠ "key" ∧
        parse_field_node field check node =
          throw_exception ("Unknown node found in <field>: " ++ node.name)) := by
  by_cases h1 : node.name = "name"
  · left
    refine ⟨h1, ?_⟩
    cases hc : check.name <;> simp [parse_field_node, h1, assign_unique, hc, throw_exception]
  · by_cases h2 : node.name = "type"
    · right; left
      refine ⟨h1, h2, ?_⟩
      cases hc : check.type_ <;> simp [parse_field_node, h2, assign_unique, hc, throw_exception]
    · by_cases h3 : node.name = "key"
      · right; right; left
        refine ⟨h1, h2, h3, ?_⟩
        unfold parse_field_node
        rw [if_neg h1, if_neg h2, if_pos h3]
      · right; right; right
        exact ⟨h1, h2, h3, by simp [parse_field_node, h1, h2, h3]⟩

theorem parse_field_nodes_ok (nodes : List xml_node) (field field2 : types.Field)
    (check check2 : UniqueCheck)
    (h : parse_field_nodes nodes (field, check) = Except.ok (field2, check2)) :
    (∀ node ∈ nodes, node.name = "name" ∨ node.name = "type" ∨ node.name = "key") ∧
      check.name.toNat + nodes.countP (named "name") = check2.name.toNat ∧
      check.type_.toNat + nodes.countP (named "type") = check2.type_.toNat ∧
      field2.keys.map Except.ok =
        field.keys.map Except.ok ++ (nodes.filter (named "key")).map parse_field_key ∧
      (nodes.countP (named "name") = 0 ∧ field2.name = field.name ∨
        ∃ node ∈ nodes, node.name = "name" ∧ field2.name = node.value) ∧
      (nodes.countP (named "type") = 0 ∧ field2.underlying_type = field.underlying_type ∨
        ∃ node ∈ nodes, node.name = "type" ∧ field2.underlying_type = node.value) := by
  induction nodes generalizing field check with
  | nil =>
    simp only [parse_field_nodes, Except.ok.injEq, Prod.mk.injEq] at h
    obtain ⟨hf, hc⟩ := h
    subst hf
    subst hc
    simp
  | cons node rest ih =>
    rw [parse_field_nodes] at h
    rcases parse_field_node_cases field check node with
      ⟨h1, hn⟩ | ⟨h1, h2, hn⟩ | ⟨h1, h2, h3, hn⟩ | ⟨h1, h2, h3, hn⟩
    · rw [hn] at h
      cases hc : check.name with
      | true => simp [hc, throw_exception] at h
      | false =>
        simp only [hc, Bool.false_eq_true, if_false] at h
        obtain ⟨a1, a2, a3, a4, a5, a6⟩ := ih _ _ h
        have hrest : rest.countP (named "name") = 0 := by
          have := Bool.toNat_le check2.name
          simp only [Bool.toNat_true] at a2
          omega
        refine ⟨?_, ?_, ?_, ?_, ?_, ?_⟩
        · intro n hn2
          rcases List.mem_cons.mp hn2 with e | e
          · rw [e]; exact Or.inl h1
          · exact a1 n e
        · simp only [List.countP_cons, named, h1, beq_self_eq_true, if_true, Bool.toNat_false]
          simp only [Bool.toNat_true] at a2
          omega
        · simpa [List.countP_cons, named, h1] using a3
        · simpa [List.filter_cons, named, h1] using a4
        · right
          rcases a5 with ⟨_, e⟩ | ⟨n, hn2, e1, e2⟩
          · exact ⟨node, List.mem_cons_self _ _, h1, e⟩
          · exact ⟨n, List.mem_cons_of_mem _ hn2, e1, e2⟩
        · rcases a6 with ⟨c, e⟩ | ⟨n, hn2, e1, e2⟩
          · left
            exact ⟨by simpa [List.countP_cons, named, h1] using c, e⟩
          · right
            exact ⟨n, List.mem_cons_of_mem _ hn2, e1, e2⟩
    · rw [hn] at h
      cases hc : check.type_ with
      | true => simp [hc, throw_exception] at h
      | false =>
        simp only [hc, Bool.false_eq_true, if_false] at h
        obtain ⟨a1, a2, a3, a4, a5, a6⟩ := ih _ _ h
        refine ⟨?_, ?_, ?_, ?_, ?_, ?_⟩
        · intro n hn2
          rcases List.mem_cons.mp hn2 with e | e
          · rw [e]; exact Or.inr (Or.inl h2)
          · exact a1 n e
        · simpa [List.countP_cons, named, h1] using a2
        · simp only [List.countP_cons, named, h2, beq_self_eq_true, if_true, Bool.toNat_false]
          simp only [Bool.toNat_true] at a3
          omega
        · simpa [List.filter_cons, named, h2] using a4
        · rcases a5 with ⟨c, e⟩ | ⟨n, hn2, e1, e2⟩
          · left
            exact ⟨by simpa [List.countP_cons, named, h1] using c, e⟩
          · right
            exact ⟨n, List.mem_cons_of_mem _ hn2, e1, e2⟩
        · right
          rcases a6 with ⟨_, e⟩ | ⟨n, hn2, e1, e2⟩
          · exact ⟨node, List.mem_cons_self _ _, h2, e⟩
          · exact ⟨n, List.mem_cons_of_mem _ hn2, e1, e2⟩
    · rw [hn] at h
      cases hk : parse_field_key node with
      | error e => simp [hk] at h
      | ok key =>
        simp only [hk] at h
        obtain ⟨a1, a2, a3, a4, a5, a6⟩ := ih _ _ h
        refine ⟨?_, ?_, ?_, ?_, ?_, ?_⟩
        · intro n hn2
          rcases List.mem_cons.mp hn2 with e | e
          · rw [e]; exact Or.inr (Or.inr h3)
          · exact a1 n e
        · simpa [List.countP_cons, named, h1] using a2
        · simpa [List.countP_cons, named, h2] using a3
        · simpa [List.filter_cons, named, h3, hk] using a4
        · rcases a5 with ⟨c, e⟩ | ⟨n, hn2, e1, e2⟩
          · left
            exact ⟨by simpa [List.countP_cons, named, h1] using c, e⟩
          · right
            exact ⟨n, List.mem_cons_of_mem _ hn2, e1, e2⟩
        · rcases a6 with ⟨c, e⟩ | ⟨n, hn2, e1, e2⟩
          · left
            exact ⟨by simpa [List.countP_cons, named, h2] using c, e⟩
          · right
            exact ⟨n, List.mem_cons_of_mem _ hn2, e1, e2⟩
    · rw [hn] at h
      simp [throw_exception] at h

theorem parse_field_nodes_succeeds (nodes : List xml_node) (field : types.Field)
    (check : UniqueCheck)
    (hnames : ∀ node ∈ nodes, node.name = "name" ∨ node.name = "type" ∨ node.name = "key")
    (hname : check.name.toNat + nodes.countP (named "name") ≤ 1)
    (htype : check.type_.toNat + nodes.countP (named "type") ≤ 1)
    (hkeys : ∀ node ∈ nodes, node.name = "key" → ∃ key, parse_field_key node = Except.ok key) :
    ∃ state, parse_field_nodes nodes (field, check) = Except.ok state := by
  induction nodes generalizing field check with
  | nil => exact ⟨_, rfl⟩
  | cons node rest ih =>
    rw [parse_field_nodes]
    have hnames2 : ∀ n ∈ rest, n.name = "name" ∨ n.name = "type" ∨ n.name = "key" :=
      fun n hn => hnames n (List.mem_cons_of_mem _ hn)
    have hkeys2 : ∀ n ∈ rest, n.name = "key" → ∃ key, parse_field_key n = Except.ok key :=
      fun n hn => hkeys n (List.mem_cons_of_mem _ hn)
    rcases parse_field_node_cases field check node with
      ⟨h1, hn⟩ | ⟨h1, h2, hn⟩ | ⟨h1, h2, h3, hn⟩ | ⟨h1, h2, h3, _⟩
    · rw [hn]
      simp only [List.countP_cons, named, h1, beq_self_eq_true, if_true] at hname
      have hh2 : ¬ ("name" = "type") := by decide
      simp only [List.countP_cons, named, h1] at htype
      cases hc : check.name with
      | true => simp [hc] at hname
      | false =>
        simp only [hc, Bool.false_eq_true, if_false]
        apply ih _ _ hnames2 _ _ hkeys2
        · simp only [hc, Bool.toNat_false, Bool.toNat_true] at hname ⊢
          omega
        · simpa using htype
    · rw [hn]
      simp only [List.countP_cons, named, h2, beq_self_eq_true, if_true] at htype
      simp only [List.countP_cons, named, h2] at hname
      cases hc : check.type_ with
      | true => simp [hc] at htype
      | false =>
        simp only [hc, Bool.false_eq_true, if_false]
        apply ih _ _ hnames2 _ _ hkeys2
        · simpa using hname
        · simp only [hc, Bool.toNat_false, Bool.toNat_true] at htype ⊢
          omega
    · rw [hn]
      obtain ⟨key, hk⟩ := hkeys node (List.mem_cons_self _ _) h3
      simp only [hk]
      simp only [List.countP_cons, named, h3] at hname htype
      apply ih _ _ hnames2 _ _ hkeys2
      · simpa using hname
      · simpa using htype
    · rcases hnames node (List.mem_cons_self _ _) with e | e | e
      · exact absurd e h1
      · exact absurd e h2
      · exact absurd e h3

/-- C21: `parse_field` succeeds exactly when every child of the `<field>` element is named
`name`, `type` or `key`, there is exactly one `<name>` and exactly one `<type>` child, and
`parse_field_key` succeeds on every `<key>` child. On success the field holds the value of
the `<name>` child, the value of the `<type>` child, and the parsed `<key>` children in
document order. -/
theorem parse_field_spec (root : xml_node) :
    ((∃ field, parse_field root = Except.ok field) ↔
        (∀ node ∈ root.children,
          node.name = "name" ∨ node.name = "type" ∨ node.name = "key") ∧
        root.children.countP (named "name") = 1 ∧
        root.children.countP (named "type") = 1 ∧
        ∀ node ∈ root.children, node.name = "key" →
          ∃ key, parse_field_key node = Except.ok key) ∧
      ∀ field, parse_field root = Except.ok field →
        (∃ node ∈ root.children, node.name = "name" ∧ field.name = node.value) ∧
        (∃ node ∈ root.children, node.name = "type" ∧ field.underlying_type = node.value) ∧
        field.keys.map Except.ok =
          (root.children.filter (named "key")).map parse_field_key := by
  have forward : ∀ field, parse_field root = Except.ok field →
      ((∀ node ∈ root.children,
          node.name = "name" ∨ node.name = "type" ∨ node.name = "key") ∧
        root.children.countP (named "name") = 1 ∧
        root.children.countP (named "type") = 1 ∧
        ∀ node ∈ root.children, node.name = "key" →
          ∃ key, parse_field_key node = Except.ok key) ∧
      (∃ node ∈ root.children, node.name = "name" ∧ field.name = node.value) ∧
      (∃ node ∈ root.children, node.name = "type" ∧ field.underlying_type = node.value) ∧
      field.keys.map Except.ok =
        (root.children.filter (named "key")).map parse_field_key := by
    intro field hfield
    unfold parse_field at hfield
    simp only at hfield
    split at hfield
    · simp at hfield
    · next parsed check hloop =>
      split at hfield
      · simp [throw_exception] at hfield
      · next hcheck =>
        simp only [Except.ok.injEq] at hfield
        subst hfield
        have hn : check.name = true := by
          cases hc : check.name <;> simp [hc] at hcheck ⊢
        have ht : check.type_ = true := by
          cases hc : check.type_ <;> simp [hc] at hcheck ⊢
        obtain ⟨a1, a2, a3, a4, a5, a6⟩ := parse_field_nodes_ok _ _ _ _ _ hloop
        simp only [Bool.toNat_false, Bool.toNat_true, hn, ht, Nat.zero_add] at a2 a3
        have a4b : parsed.keys.map Except.ok =
            (root.children.filter (named "key")).map parse_field_key := by
          rw [a4]
          split <;> simp
        refine ⟨⟨a1, a2, a3, ?_⟩, ?_, ?_, a4b⟩
        · intro node hmem hkey
          have hin : parse_field_key node ∈
              (root.children.filter (named "key")).map parse_field_key :=
            List.mem_map.mpr ⟨node, List.mem_filter.mpr ⟨hmem, by simp [named, hkey]⟩, rfl⟩
          rw [← a4b] at hin
          obtain ⟨key, _, hk⟩ := List.mem_map.mp hin
          exact ⟨key, hk.symm⟩
        · rcases a5 with ⟨c, _⟩ | e
          · omega
          · exact e
        · rcases a6 with ⟨c, _⟩ | e
          · omega
          · exact e
  refine ⟨⟨?_, ?_⟩, fun field hfield => (forward field hfield).2⟩
  · rintro ⟨field, hfield⟩
    exact (forward field hfield).1
  · rintro ⟨hnames, hname, htype, hkeys⟩
    have key : ∀ init : types.Field, ∃ field,
        (match parse_field_nodes root.children (init, ({} : UniqueCheck)) with
          | Except.error e => Except.error e
          | Except.ok (field, check) =>
            if !check.type_ || !check.name then
              throw_exception "A <field> must have at least <name> and <type> nodes"
            else
              Except.ok field) = Except.ok field := by
      intro init
      obtain ⟨⟨parsed, check⟩, hloop⟩ :=
        parse_field_nodes_succeeds root.children init {} hnames (by simp [hname])
          (by simp [htype]) hkeys
      obtain ⟨_, a2, a3, _⟩ := parse_field_nodes_ok _ _ _ _ _ hloop
      rw [hloop]
      simp only [Bool.toNat_false, Nat.zero_add, hname, htype] at a2 a3
      have hn : check.name = true := by
        cases hc : check.name <;> simp [hc] at a2 ⊢
      have ht : check.type_ = true := by
        cases hc : check.type_ <;> simp [hc] at a3 ⊢
      simp [hn, ht]
    unfold parse_field
    exact key _

/-- C21 at a concrete element: a field with a name, a type and two keys. -/
theorem parse_field_spec_witness :
    parse_field sample.field_node =
        Except.ok
          { name := "map_id", underlying_type := "uint32", comment := "the map",
            keys := [{ type_ := "primary" },
              { type_ := "foreign", parent := "Map", ignore_type_mismatch := true }] } ∧
      sample.field_node.children.countP (named "name") = 1 :=
  ⟨rfl, ((parse_field_spec sample.field_node).1.mp ⟨_, rfl⟩).2.1⟩

theorem parse_struct_below_eq (max_parse_depth depth : Nat) (node : xml_node) :
    parse_struct_below max_parse_depth depth node =
      parse_struct max_parse_depth node.children (depth + 1) := by
  cases node with
  | mk name value attributes children => simp [parse_struct_below, parse_struct, xml_node.children]

theorem parse_struct_too_deep (max_parse_depth depth : Nat) (nodes : List xml_node)
    (h : max_parse_depth < depth) :
    parse_struct max_parse_depth nodes depth = throw_exception "Struct nesting is too deep" := by
  simp [parse_struct, parse_struct_head, h, throw_exception]

theorem parse_struct_nodes_step (max_parse_depth depth : Nat) (node : xml_node)
    (rest : List xml_node) (state : types.Struct × UniqueCheck)
    (hfail : ∀ parsed, parse_struct_below max_parse_depth depth node ≠ Except.ok parsed)
    (hname : node.name = "struct") (result : types.Struct × UniqueCheck) :
    parse_struct_nodes max_parse_depth depth (node :: rest) state ≠ Except.ok result := by
  obtain ⟨parsed, check⟩ := state
  rw [parse_struct_nodes]
  simp only [hname, if_true]
  cases hb : parse_struct_below max_parse_depth depth node with
  | error e => simp
  | ok child => exact absurd hb (hfail child)

theorem parse_struct_nodes_skip (max_parse_depth depth : Nat) (node : xml_node)
    (rest : List xml_node) (state : types.Struct × UniqueCheck)
    (hrest : ∀ state2 result, parse_struct_nodes max_parse_depth depth rest state2 ≠ Except.ok result)
    (result : types.Struct × UniqueCheck) :
    parse_struct_nodes max_parse_depth depth (node :: rest) state ≠ Except.ok result := by
  obtain ⟨parsed, check⟩ := state
  rw [parse_struct_nodes]
  split
  · split
    · simp
    · exact hrest _ _
  · split
    · split
      · simp
      · exact hrest _ _
    · split
      · simp
      · exact hrest _ _

theorem parse_struct_nodes_of_member (max_parse_depth depth : Nat) (node : xml_node)
    (hname : node.name = "struct")
    (hfail : ∀ parsed, parse_struct_below max_parse_depth depth node ≠ Except.ok parsed)
    (nodes : List xml_node) (hmem : node ∈ nodes) (state result : types.Struct × UniqueCheck) :
    parse_struct_nodes max_parse_depth depth nodes state ≠ Except.ok result := by
  induction nodes generalizing state result with
  | nil => simp at hmem
  | cons head rest ih =>
    rcases List.mem_cons.mp hmem with heq | hin
    · subst heq
      exact parse_struct_nodes_step _ _ _ _ _ hfail hname _
    · exact parse_struct_nodes_skip _ _ _ _ _ (fun s r => ih hin s r) _

theorem parse_struct_of_nodes_fail (max_parse_depth depth : Nat) (nodes : List xml_node)
    (h : ∀ state result, parse_struct_nodes max_parse_depth depth nodes state ≠ Except.ok result)
    (parsed : types.Struct) :
    parse_struct max_parse_depth nodes depth ≠ Except.ok parsed := by
  rw [parse_struct]
  split
  · simp
  · split
    · simp
    · next state _ result hr => exact absurd hr (h _ _)

theorem nested_struct_rejected (max_parse_depth : Nat) (k : Nat) (nodes : List xml_node)
    (h : nested_struct k nodes) (depth : Nat) (hdeep : max_parse_depth < depth + 1 + k)
    (state result : types.Struct × UniqueCheck) :
    parse_struct_nodes max_parse_depth depth nodes state ≠ Except.ok result := by
  induction h generalizing depth state result with
  | top node nodes hmem hname =>
    apply parse_struct_nodes_of_member _ _ node hname _ nodes hmem
    intro parsed
    rw [parse_struct_below_eq, parse_struct_too_deep _ _ _ (by omega)]
    simp [throw_exception]
  | inside node nodes k hmem hname _ ih =>
    apply parse_struct_nodes_of_member _ _ node hname _ nodes hmem
    intro parsed
    rw [parse_struct_below_eq]
    exact parse_struct_of_nodes_fail _ _ _ (fun s r => ih (depth + 1) (by omega) s r) _

theorem parse_doc_root_nodes_of_member (max_parse_depth : Nat) (node : xml_node)
    (hname : node.name = "struct")
    (hfail : ∀ parsed, parse_struct max_parse_depth node.children 0 ≠ Except.ok parsed)
    (nodes : List xml_node) (hmem : node ∈ nodes) (definition result : types.Definition) :
    parse_doc_root_nodes max_parse_depth nodes definition ≠ Except.ok result := by
  induction nodes generalizing definition result with
  | nil => simp at hmem
  | cons head rest ih =>
    rw [parse_doc_root_nodes]
    rcases List.mem_cons.mp hmem with heq | hin
    · subst heq
      simp only [hname, if_true]
      cases hb : parse_struct max_parse_depth node.children 0 with
      | error e => simp
      | ok child => exact absurd hb (hfail child)
    · split
      · split
        · simp
        · exact ih hin _ _
      · split
        · split
          · simp
          · exact ih hin _ _
        · exact ih hin _ _

theorem xml_node_name_mk (name value : String) (attributes : List xml_attribute)
    (children : List xml_node) : (xml_node.mk name value attributes children).name = name := rfl

theorem xml_node_value_mk (name value : String) (attributes : List xml_attribute)
    (children : List xml_node) : (xml_node.mk name value attributes children).value = value := rfl

theorem xml_node_attributes_mk (name value : String) (attributes : List xml_attribute)
    (children : List xml_node) :
    (xml_node.mk name value attributes children).attributes = attributes := rfl

theorem xml_node_children_mk (name value : String) (attributes : List xml_attribute)
    (children : List xml_node) :
    (xml_node.mk name value attributes children).children = children := rfl

theorem tower_name (k : Nat) : (tower k).name = "struct" := by
  cases k <;> rfl

theorem parse_tower (max_parse_depth : Nat) (k depth : Nat) :
    parse_struct max_parse_depth (tower k).children depth =
      if depth + k ≤ max_parse_depth then Except.ok (tower_parsed k)
      else throw_exception "Struct nesting is too deep" := by
  induction k generalizing depth with
  | zero =>
    by_cases hd : depth ≤ max_parse_depth
    · have hd2 : ¬ depth > max_parse_depth := by omega
      simp [tower, tower_parsed, parse_struct, parse_struct_head, parse_struct_nodes,
        parse_struct_node, assign_unique, parse_struct_tail, xml_node_children_mk,
        xml_node_name_mk, xml_node_value_mk, xml_node.first_attribute, xml_node_attributes_mk,
        hd, hd2]
    · rw [parse_struct_too_deep _ _ _ (by omega)]
      simp [hd]
  | succ k ih =>
    by_cases hd : depth ≤ max_parse_depth
    · have hd2 : ¬ depth > max_parse_depth := by omega
      have hchildren : (tower (k + 1)).children =
          [xml_node.mk "name" "s" [] [], tower k] := rfl
      rw [hchildren, parse_struct]
      simp only [parse_struct_head, hd2, if_false, xml_node.first_attribute,
        xml_node_attributes_mk, List.find?_nil, parse_struct_nodes, xml_node_name_mk,
        tower_name, parse_struct_node, assign_unique, xml_node_value_mk, parse_struct_below_eq,
        ih]
      by_cases hk : depth + 1 + k ≤ max_parse_depth
      · have hk2 : depth + (k + 1) ≤ max_parse_depth := by omega
        simp [hk, hk2, parse_struct_tail, tower_parsed]
      · have hk2 : ¬ depth + (k + 1) ≤ max_parse_depth := by omega
        simp [hk, hk2, throw_exception]
    · rw [parse_struct_too_deep _ _ _ (by omega)]
      have : ¬ depth + (k + 1) ≤ max_parse_depth := by omega
      simp [this]

theorem tower_nested (k : Nat) : nested_struct k [tower k] := by
  induction k with
  | zero => exact nested_struct.top (tower 0) _ (List.mem_singleton.mpr rfl) rfl
  | succ k ih =>
    refine nested_struct.inside (tower (k + 1)) _ k (List.mem_singleton.mpr rfl) rfl ?_
    cases ih with
    | top node _ hmem hname =>
      exact nested_struct.top node _ (List.mem_cons_of_mem _ hmem) hname
    | inside node _ j hmem hname hrest =>
      exact nested_struct.inside node _ j (List.mem_cons_of_mem _ hmem) hname hrest

theorem sample_doubly_wrong_nested : nested_struct 2 sample.doubly_wrong :=
  nested_struct.inside _ _ 1 (List.Mem.head _) rfl
    (nested_struct.inside _ _ 0 (List.Mem.tail _ (List.Mem.tail _ (List.Mem.head _))) rfl
      (nested_struct.top _ _ (List.Mem.tail _ (List.Mem.head _)) rfl))

theorem sizeOf_children_lt (node : xml_node) (rest : List xml_node) :
    sizeOf node.children < sizeOf (node :: rest) := by
  cases node with
  | mk name value attributes children =>
    simp only [xml_node.children, List.cons.sizeOf_spec, xml_node.mk.sizeOf_spec]
    omega

theorem sizeOf_rest_lt (node : xml_node) (rest : List xml_node) :
    sizeOf rest < sizeOf (node :: rest) := by
  simp only [List.cons.sizeOf_spec]
  omega

theorem parse_struct_of_nodes_limit (small large depth : Nat) (nodes : List xml_node)
    (hle : small ≤ large)
    (hnodes : ∀ state,
      parse_struct_nodes small depth nodes state =
          throw_exception "Struct nesting is too deep" ∨
        parse_struct_nodes small depth nodes state =
          parse_struct_nodes large depth nodes state) :
    parse_struct small nodes depth = throw_exception "Struct nesting is too deep" ∨
      parse_struct small nodes depth = parse_struct large nodes depth := by
  by_cases hd : small < depth
  · left
    exact parse_struct_too_deep _ _ _ hd
  · have hhead : parse_struct_head small nodes depth = parse_struct_head large nodes depth := by
      have h1 : ¬ depth > small := by omega
      have h2 : ¬ depth > large := by omega
      simp [parse_struct_head, h1, h2]
    rw [parse_struct, parse_struct, hhead]
    cases hh : parse_struct_head large nodes depth with
    | error e => right; rfl
    | ok state =>
      simp only
      rcases hnodes state with h | h
      · left
        rw [h]
        rfl
      · right
        rw [h]

theorem parse_struct_nodes_limit (small large : Nat) (hle : small ≤ large) (n : Nat) :
    ∀ (nodes : List xml_node), sizeOf nodes < n →
      ∀ (depth : Nat) (state : types.Struct × UniqueCheck),
        parse_struct_nodes small depth nodes state =
            throw_exception "Struct nesting is too deep" ∨
          parse_struct_nodes small depth nodes state =
            parse_struct_nodes large depth nodes state := by
  induction n with
  | zero => intro nodes h; omega
  | succ n ih =>
    intro nodes hsize depth state
    cases nodes with
    | nil => right; rfl
    | cons node rest =>
      obtain ⟨parsed, check⟩ := state
      have hrest : sizeOf rest < n := by
        have := sizeOf_rest_lt node rest
        omega
      have hchildren : sizeOf node.children < n := by
        have := sizeOf_children_lt node rest
        omega
      rw [parse_struct_nodes, parse_struct_nodes]
      by_cases h1 : node.name = "struct"
      · simp only [h1, if_true, parse_struct_below_eq]
        rcases parse_struct_of_nodes_limit small large (depth + 1) node.children hle
            (fun st => ih node.children hchildren (depth + 1) st) with h | h
        · left
          rw [h]
          rfl
        · rw [h]
          cases parse_struct large node.children (depth + 1) with
          | error e => right; rfl
          | ok child => exact ih rest hrest depth _
      · by_cases h2 : node.name = "enum"
        · simp only [h1, h2, if_true, if_false]
          cases parse_enum node.children with
          | error e => right; rfl
          | ok child => exact ih rest hrest depth _
        · simp only [h1, h2, if_false]
          cases parse_struct_node parsed check node with
          | error e => right; rfl
          | ok st => exact ih rest hrest depth _

theorem parse_struct_limit (small large depth : Nat) (nodes : List xml_node)
    (hle : small ≤ large) :
    parse_struct small nodes depth = throw_exception "Struct nesting is too deep" ∨
      parse_struct small nodes depth = parse_struct large nodes depth :=
  parse_struct_of_nodes_limit small large depth nodes hle
    (fun state => parse_struct_nodes_limit small large hle (sizeOf nodes + 1) nodes
      (by omega) depth state)

theorem parse_doc_root_nodes_limit (small large : Nat) (hle : small ≤ large)
    (nodes : List xml_node) (definition : types.Definition) :
    parse_doc_root_nodes small nodes definition =
        throw_exception "Struct nesting is too deep" ∨
      parse_doc_root_nodes small nodes definition =
        parse_doc_root_nodes large nodes definition := by
  induction nodes generalizing definition with
  | nil => right; rfl
  | cons node rest ih =>
    rw [parse_doc_root_nodes, parse_doc_root_nodes]
    by_cases h1 : node.name = "struct"
    · simp only [h1, if_true]
      rcases parse_struct_limit small large 0 node.children hle with h | h
      · left
        rw [h]
        rfl
      · rw [h]
        cases parse_struct large node.children 0 with
        | error e => right; rfl
        | ok child => exact ih _
    · by_cases h2 : node.name = "enum"
      · simp only [h1, h2, if_true, if_false]
        cases parse_enum node.children with
        | error e => right; rfl
        | ok child => exact ih _
      · simp only [h1, h2, if_false]
        exact ih _

theorem parse_doc_root_limit (small large : Nat) (hle : small ≤ large)
    (nodes : List xml_node) :
    parse_doc_root small nodes = throw_exception "Struct nesting is too deep" ∨
      parse_doc_root small nodes = parse_doc_root large nodes :=
  parse_doc_root_nodes_limit small large hle nodes []

/-- C22, as stated, fails: with a depth limit of one, the sample definition nests a struct
inside two others, yet the error it is rejected with is the one of the duplicated `<name>`
that comes first in the document, not `Struct nesting is too deep`. -/
theorem deep_nesting_reports_earlier_error :
    nested_struct 2 sample.doubly_wrong ∧ 1 < 2 ∧
      parse_doc_root 1 sample.doubly_wrong = throw_exception "Multiple definitions of: name" ∧
      parse_doc_root 1 sample.doubly_wrong ≠ throw_exception "Struct nesting is too deep" :=
  ⟨sample_doubly_wrong_nested, by decide, rfl, by
    intro h
    have h2 : parse_doc_root 1 sample.doubly_wrong =
        throw_exception "Multiple definitions of: name" := rfl
    rw [h2] at h
    simp only [throw_exception, Except.error.injEq] at h
    exact absurd h (by decide)⟩

/-- C22, amended: `parse_struct` is defined by recursion on the tree, so it ends on every
tree. Take a definition in which a `<struct>` is nested inside more than `MAX_PARSE_DEPTH`
other structs, and on which the parser does not run into the null first child of an empty
element. Then `parse_doc_root` throws. The exception is `Struct nesting is too deep` unless
another one is thrown first, and that one is then thrown under every larger depth limit as
well; so a definition that a larger limit lets through is rejected with `Struct nesting is
too deep`. `parse_struct` throws it whenever it is entered at a depth above the limit, and a
chain of well-formed structs is parsed when it is nested exactly to the limit. -/
theorem nested_too_deep_never_parsed (max_parse_depth : Nat) (nodes : List xml_node) (k : Nat)
    (h : nested_struct k nodes) (hk : max_parse_depth < k)
    (hnull : parse_doc_root max_parse_depth nodes ≠ Except.error Failure.null_dereference) :
    (∃ what, parse_doc_root max_parse_depth nodes = throw_exception what ∧
        (what = "Struct nesting is too deep" ∨
          ∀ larger, max_parse_depth ≤ larger →
            parse_doc_root larger nodes = throw_exception what)) ∧
      (∀ larger definition, max_parse_depth ≤ larger →
        parse_doc_root larger nodes = Except.ok definition →
        parse_doc_root max_parse_depth nodes =
          throw_exception "Struct nesting is too deep") ∧
      (∀ siblings depth, max_parse_depth < depth →
        parse_struct max_parse_depth siblings depth =
          throw_exception "Struct nesting is too deep") ∧
      (∀ n, parse_doc_root max_parse_depth [tower n] =
        if n ≤ max_parse_depth then Except.ok [(tower_parsed n).to_base]
        else throw_exception "Struct nesting is too deep") := by
  have hnever : ∀ definition, parse_doc_root max_parse_depth nodes ≠ Except.ok definition := by
    intro definition
    cases h with
    | top node _ hmem hname => omega
    | inside node _ j hmem hname hrest =>
      apply parse_doc_root_nodes_of_member _ node hname _ nodes hmem
      intro parsed
      exact parse_struct_of_nodes_fail _ _ _
        (fun s r => nested_struct_rejected _ j _ hrest 0 (by omega) s r) _
  refine ⟨?_, ?_, fun siblings depth hd => parse_struct_too_deep _ _ siblings hd, ?_⟩
  · cases hres : parse_doc_root max_parse_depth nodes with
    | ok definition => exact absurd hres (hnever definition)
    | error failure =>
      cases failure with
      | null_dereference => exact absurd hres hnull
      | exception what =>
        refine ⟨what, rfl, ?_⟩
        by_cases hw : what = "Struct nesting is too deep"
        · exact Or.inl hw
        · right
          intro larger hle
          rcases parse_doc_root_limit max_parse_depth larger hle nodes with hlim | hlim
          · rw [hres] at hlim
            simp only [throw_exception, Except.error.injEq, Failure.exception.injEq] at hlim
            exact absurd hlim hw
          · rw [← hlim, hres]
            rfl
  · intro larger definition hle hok
    rcases parse_doc_root_limit max_parse_depth larger hle nodes with hlim | hlim
    · exact hlim
    · rw [hok] at hlim
      exact absurd hlim (hnever definition)
  · intro n
    rw [parse_doc_root, parse_doc_root_nodes]
    simp only [tower_name, if_true, parse_tower, Nat.zero_add]
    by_cases hn : n ≤ max_parse_depth
    · simp [hn, parse_doc_root_nodes]
    · simp [hn, throw_exception]

/-- The amended C22 at the sample definition with a depth limit of one: it throws, and what
it throws is the exception of the duplicated `<name>` under every larger limit too. -/
theorem nested_too_deep_never_parsed_witness :
    nested_struct 2 sample.doubly_wrong ∧
      parse_doc_root 1 sample.doubly_wrong ≠ Except.error Failure.null_dereference ∧
      ∃ what, parse_doc_root 1 sample.doubly_wrong = throw_exception what ∧
        (what = "Struct nesting is too deep" ∨
          ∀ larger, 1 ≤ larger → parse_doc_root larger sample.doubly_wrong = throw_exception what) :=
  have hnull : parse_doc_root 1 sample.doubly_wrong ≠ Except.error Failure.null_dereference := by
    intro h
    have h2 : parse_doc_root 1 sample.doubly_wrong =
        throw_exception "Multiple definitions of: name" := rfl
    rw [h2] at h
    simp [throw_exception] at h
  ⟨sample_doubly_wrong_nested, hnull,
    (nested_too_deep_never_parsed 1 sample.doubly_wrong 2 sample_doubly_wrong_nested
      (by decide) hnull).1⟩

end Parser

end dbc

end ember
